import Mathlib

/-!
A shallow embedding of the streaming message exchange and conversation-state
management subsystem of the `alcon-mlr-agent` web interface
(`src/web-interface/src/ChatContext.tsx` and
`src/web-interface/src/components/ChatInterface.tsx`), together with theorems
settling the behavioural claims about it.

Conventions of the embedding:
* JavaScript strings are Lean `String`s, except inside the title-derivation
  algorithm where a JS string is modelled as its list of UTF-16 code units
  (`List Nat`), so that the character arithmetic of `toUpperCase` is explicit.
* `Date` values are their millisecond timestamps (`Nat`).
* The browser event loop is sequential; each handler is a pure function from
  the pre-call state (its React snapshot) and the environment's responses to
  the post-call state plus the trace of `updateCurrentMessages` commits.
* `localStorage` holds JSON text; the embedding stores the JSON *value*
  denoted by that text (`JsValue`), since serialisation of a date-free value
  to text and parsing it back is the identity on the denoted value.
-/

namespace EyeQ

/-- A JavaScript runtime value as handled by `JSON.stringify`/`JSON.parse`:
JSON structure plus `Date` objects (kept as their millisecond timestamp).
`JSON.parse` never produces a `date`. -/
inductive JsValue where
  | null : JsValue
  | bool (b : Bool) : JsValue
  | num (n : Nat) : JsValue
  | str (s : String) : JsValue
  | date (ms : Nat) : JsValue
  | arr (elems : List JsValue) : JsValue
  | obj (fields : List (String × JsValue)) : JsValue

/-- Models the builtin `Date.prototype.toISOString` as an injective rendering
of the millisecond timestamp.  The concrete text is irrelevant to every
property proved here; what matters is that serialisation turns a `Date` into
a string. -/
def dateToString (ms : Nat) : String := "1970-epoch-ms:" ++ toString ms

mutual

/-- The value denoted by the text `JSON.stringify` produces: `Date`s become
their ISO strings (a `Date` has a `toJSON` method), everything else is kept
structurally.  `JSON.parse` applied to that text returns exactly this value,
so a `save`/`load` round trip through `localStorage` denotes this function. -/
def stringifyValue : JsValue → JsValue
  | .null => .null
  | .bool b => .bool b
  | .num n => .num n
  | .str s => .str s
  | .date ms => .str (dateToString ms)
  | .arr elems => .arr (stringifyList elems)
  | .obj fields => .obj (stringifyFields fields)

def stringifyList : List JsValue → List JsValue
  | [] => []
  | v :: vs => stringifyValue v :: stringifyList vs

def stringifyFields : List (String × JsValue) → List (String × JsValue)
  | [] => []
  | (k, v) :: kvs => (k, stringifyValue v) :: stringifyFields kvs

end

mutual

/-- `true` iff the value contains no `Date` anywhere (so it is already in the
image of `JSON.parse`). -/
def dateFree : JsValue → Bool
  | .null => true
  | .bool _ => true
  | .num _ => true
  | .str _ => true
  | .date _ => false
  | .arr elems => dateFreeList elems
  | .obj fields => dateFreeFields fields

def dateFreeList : List JsValue → Bool
  | [] => true
  | v :: vs => dateFree v && dateFreeList vs

def dateFreeFields : List (String × JsValue) → Bool
  | [] => true
  | (_, v) :: kvs => dateFree v && dateFreeFields kvs

end

/-- The browser `localStorage`, plus whether a browser environment is present
at all (the `typeof window === 'undefined'` checks in `ChatContext.tsx`). -/
structure LocalStorage where
  hasWindow : Bool
  entries : List (String × JsValue)

/-- `localStorage.getItem`, at the granularity of stored JSON values. -/
def LocalStorage.getItem (st : LocalStorage) (key : String) : Option JsValue :=
  (st.entries.find? (fun e => e.1 = key)).map (fun e => e.2)

/-- `localStorage.setItem`: replace the value under `key`, or append it. -/
def LocalStorage.setItem (st : LocalStorage) (key : String) (v : JsValue) : LocalStorage :=
  if (st.entries.find? (fun e => e.1 = key)).isSome then
    { st with entries := st.entries.map (fun e => if e.1 = key then (key, v) else e) }
  else
    { st with entries := st.entries ++ [(key, v)] }

/-- `saveToLocalStorage` (`ChatContext.tsx:61-72`): no-op outside a browser;
otherwise `localStorage.setItem(key, JSON.stringify(data))`.  `setItem`
failures are caught and logged, which leaves the store unchanged; the
embedding models the successful write. -/
def saveToLocalStorage (st : LocalStorage) (key : String) (data : JsValue) : LocalStorage :=
  if st.hasWindow then st.setItem key (stringifyValue data) else st

/-- `loadFromLocalStorage` (`ChatContext.tsx:74-87`): the caller-supplied
default outside a browser or when the key is missing; otherwise
`JSON.parse(item)`.  Stored items are JSON text written by
`saveToLocalStorage`, so parsing returns the stored value (a parse failure,
which would also yield the default, cannot arise from values written by
`save`). -/
def loadFromLocalStorage (st : LocalStorage) (key : String) (defaultValue : JsValue) : JsValue :=
  if st.hasWindow then
    match st.getItem key with
    | some v => v
    | none => defaultValue
  else defaultValue

/-- The two storage keys (`STORAGE_KEYS`, `ChatContext.tsx:56-59`). -/
def STORAGE_KEY_CONVERSATIONS : String := "eyeq_conversations"

/-- `STORAGE_KEYS.CURRENT_CONVERSATION`. -/
def STORAGE_KEY_CURRENT : String := "eyeq_current_conversation"

/-! ## Data model (`src/web-interface/tailwind.config.js`, `Message`/`Conversation` interfaces) -/

/-- `Message.id : number | string`.  Number ids come from `Date.now()`. -/
inductive MsgId where
  | num (n : Nat) : MsgId
  | str (s : String) : MsgId
deriving DecidableEq, Repr

/-- `Message.type : 'user' | 'assistant'`. -/
inductive MsgType where
  | user : MsgType
  | assistant : MsgType
deriving DecidableEq, Repr

/-- `Attachment.type : 'text' | 'file' | 'image'`. -/
inductive AttachmentKind where
  | text : AttachmentKind
  | file : AttachmentKind
  | image : AttachmentKind
deriving DecidableEq, Repr

/-- `Attachment` interface. -/
structure Attachment where
  id : String
  kind : AttachmentKind
  title : String
  content : Option String := none
  sourceMessageId : Option MsgId := none
deriving DecidableEq, Repr

/-- `Issue` interface (all fields optional). -/
structure Issue where
  issue : Option String := none
  description : Option String := none
  suggestion : Option String := none
  reference : Option String := none
deriving DecidableEq, Repr

/-- `Analysis` interface. -/
structure Analysis where
  summary : Option String := none
  approved_claims : Option (List String) := none
  issues : Option (List Issue) := none
  tools_used : Option (List String) := none
deriving DecidableEq, Repr

/-- `Message.file : { name, content? }`. -/
structure MessageFile where
  name : String
  content : Option String := none
deriving DecidableEq, Repr

/-- The `Message` interface.  Optional fields are `Option`s whose `none` is
the absent (`undefined`) property.  `analysis : Analysis | null` is optional
as well, hence `Option (Option Analysis)`: `none` = property absent,
`some none` = explicit `null`, `some (some a)` = an analysis object.
Timestamps are `Date`s in ms. -/
structure Message where
  id : MsgId
  type : MsgType
  content : String
  file : Option MessageFile := none
  attachments : Option (List Attachment) := none
  analysis : Option (Option Analysis) := none
  isLoading : Option Bool := none
  isError : Option Bool := none
  isStreaming : Option Bool := none
  timestamp : Nat
deriving DecidableEq, Repr

/-- JS truthiness of a possibly-absent boolean property (`undefined` and
`false` are falsy). -/
def truthy (b : Option Bool) : Bool := b.getD false

/-- JS truthiness of a string (`''` is falsy): `a || b` on strings. -/
def jsOrString (a b : String) : String := if a = "" then b else a

/-- The `Conversation` interface. -/
structure Conversation where
  id : String
  title : String
  messages : List Message
  createdAt : Nat
  updatedAt : Nat
  pinned : Option Bool := none
deriving DecidableEq, Repr

/-- The `UploadedFile` interface (ephemeral, never persisted). -/
structure UploadedFile where
  id : String
  name : String
  size : Nat
  type : String
  uploaded_at : String
  content : String
  isLocal : Bool
deriving DecidableEq, Repr

/-! ## JSON encoding of persisted conversations

`JSON.stringify` omits object properties whose value is `undefined`; the
encoders below therefore drop absent optional fields and keep explicit
`null`s.  `Date` fields become `JsValue.date` (serialised to ISO strings by
`stringifyValue` at save time). -/

/-- Encode a `MsgId`. -/
def msgIdJson : MsgId → JsValue
  | .num n => .num n
  | .str s => .str s

/-- Encode an `AttachmentKind`. -/
def attachmentKindJson : AttachmentKind → JsValue
  | .text => .str "text"
  | .file => .str "file"
  | .image => .str "image"

/-- Encode an `Attachment`. -/
def attachmentJson (a : Attachment) : JsValue :=
  .obj ([("id", .str a.id), ("type", attachmentKindJson a.kind), ("title", .str a.title)]
    ++ (match a.content with | some c => [("content", JsValue.str c)] | none => [])
    ++ (match a.sourceMessageId with | some i => [("sourceMessageId", msgIdJson i)] | none => []))

/-- Encode an `Issue`. -/
def issueJson (i : Issue) : JsValue :=
  .obj ((match i.issue with | some s => [("issue", JsValue.str s)] | none => [])
    ++ (match i.description with | some s => [("description", JsValue.str s)] | none => [])
    ++ (match i.suggestion with | some s => [("suggestion", JsValue.str s)] | none => [])
    ++ (match i.reference with | some s => [("reference", JsValue.str s)] | none => []))

/-- Encode an `Analysis`. -/
def analysisJson (a : Analysis) : JsValue :=
  .obj ((match a.summary with | some s => [("summary", JsValue.str s)] | none => [])
    ++ (match a.approved_claims with
        | some l => [("approved_claims", JsValue.arr (l.map JsValue.str))] | none => [])
    ++ (match a.issues with
        | some l => [("issues", JsValue.arr (l.map issueJson))] | none => [])
    ++ (match a.tools_used with
        | some l => [("tools_used", JsValue.arr (l.map JsValue.str))] | none => []))

/-- Encode a `Message`, in property declaration order. -/
def messageJson (m : Message) : JsValue :=
  .obj ([("id", msgIdJson m.id), ("type", .str (match m.type with
          | .user => "user" | .assistant => "assistant")),
        ("content", .str m.content)]
    ++ (match m.file with
        | some f => [("file", JsValue.obj ([("name", JsValue.str f.name)]
            ++ (match f.content with | some c => [("content", JsValue.str c)] | none => [])))]
        | none => [])
    ++ (match m.attachments with
        | some l => [("attachments", JsValue.arr (l.map attachmentJson))] | none => [])
    ++ (match m.analysis with
        | some (some a) => [("analysis", analysisJson a)]
        | some none => [("analysis", JsValue.null)]
        | none => [])
    ++ (match m.isLoading with | some b => [("isLoading", JsValue.bool b)] | none => [])
    ++ (match m.isError with | some b => [("isError", JsValue.bool b)] | none => [])
    ++ (match m.isStreaming with | some b => [("isStreaming", JsValue.bool b)] | none => [])
    ++ [("timestamp", .date m.timestamp)])

/-- Encode a `Conversation`. -/
def conversationJson (c : Conversation) : JsValue :=
  .obj ([("id", .str c.id), ("title", .str c.title),
        ("messages", .arr (c.messages.map messageJson)),
        ("createdAt", .date c.createdAt), ("updatedAt", .date c.updatedAt)]
    ++ (match c.pinned with | some b => [("pinned", JsValue.bool b)] | none => []))

/-- Encode the conversations collection, the value persisted under
`STORAGE_KEYS.CONVERSATIONS`. -/
def conversationsJson (cs : List Conversation) : JsValue :=
  .arr (cs.map conversationJson)

/-! ## Conversation repository (`ChatProvider` state, `ChatContext.tsx`) -/

/-- The provider's mutable state: the conversation collection, the active
conversation pointer, the uploaded-file list, and the backing store. -/
structure ChatState where
  conversations : List Conversation
  currentConversationId : Option String
  uploadedFiles : List UploadedFile
  storage : LocalStorage

/-- `saveConversationsToLocal` (`ChatContext.tsx:141-144`). -/
def saveConversationsToLocal (storage : LocalStorage) (conversationsToSave : List Conversation) :
    LocalStorage :=
  saveToLocalStorage storage STORAGE_KEY_CONVERSATIONS (conversationsJson conversationsToSave)

/-- `createConversationOnFirstMessage` (`ChatContext.tsx:167-184`): allocate a
conversation with sentinel title and empty message list, make it current,
persist, and return its id (`Date.now().toString()`). -/
def createConversationOnFirstMessage (st : ChatState) (now : Nat) : ChatState × String :=
  let newId := toString now
  let newConversations := st.conversations ++
    [{ id := newId, title := "New Chat", messages := [], pinned := some false,
       createdAt := now, updatedAt := now }]
  ({ st with conversations := newConversations,
             currentConversationId := some newId,
             storage := saveConversationsToLocal st.storage newConversations }, newId)

/-- The `messages` snapshot a handler sees
(`ChatInterface.tsx:38-48`): the current conversation's message list, or `[]`
when there is no current conversation. -/
def currentMessages (st : ChatState) : List Message :=
  match st.currentConversationId with
  | none => []
  | some cid =>
    match st.conversations.find? (fun conv => conv.id = cid) with
    | some conv => conv.messages
    | none => []

/-- The target-id resolution at the head of `updateCurrentMessages`
(`ChatContext.tsx:193`): `targetConversationId || currentConversationId`,
where both `null` and the empty string are falsy. -/
def resolveTargetId (st : ChatState) (targetConversationId : Option String) : Option String :=
  match targetConversationId with
  | some t => if t = "" then st.currentConversationId else some t
  | none => st.currentConversationId

/-- `updateCurrentMessages` (`ChatContext.tsx:191-233`): resolve the target id,
bail out when there is none, replace the matching conversation's message
list, bump `updatedAt` and persist.

The auto-rename of sentinel-titled conversations at `ChatContext.tsx:221-228`
is deferred through `setTimeout` and only rewrites the `title` field via
`updateConversationTitle`; it is modelled by that separate operation and is
orthogonal to every property proved here (none observes titles across an
exchange). -/
def updateCurrentMessages (st : ChatState) (newMessages : List Message)
    (targetConversationId : Option String) (now : Nat) : ChatState :=
  match resolveTargetId st targetConversationId with
  | none => st
  | some cid =>
    let updatedConversations := st.conversations.map (fun conv =>
      if conv.id = cid then { conv with messages := newMessages, updatedAt := now } else conv)
    { st with conversations := updatedConversations,
              storage := saveConversationsToLocal st.storage updatedConversations }

/-- `switchConversation` (`ChatContext.tsx:254-260`): unconditionally set the
pointer and persist it (there is no existence check on `id`). -/
def switchConversation (st : ChatState) (id : String) : ChatState :=
  { st with currentConversationId := some id,
            storage := saveToLocalStorage st.storage STORAGE_KEY_CURRENT (.str id) }

/-- `updateConversationTitle` (`ChatContext.tsx:262-272`). -/
def updateConversationTitle (st : ChatState) (id : String) (title : String) : ChatState :=
  let updatedConversations := st.conversations.map (fun conv =>
    if conv.id = id then { conv with title := title } else conv)
  { st with conversations := updatedConversations,
            storage := saveConversationsToLocal st.storage updatedConversations }

/-- `addFile` (`ChatContext.tsx:274-297`): append an ephemeral file record to
local state only. -/
def addFile (st : ChatState) (name : String) (size : Nat) (type : String) (now : Nat) :
    ChatState :=
  let fileData : UploadedFile :=
    { id := toString now, name := name, size := size, type := type,
      uploaded_at := dateToString now, content := "", isLocal := true }
  { st with uploadedFiles := st.uploadedFiles ++ [fileData] }

/-- `deleteConversation` (`ChatContext.tsx:312-324`): drop every conversation
whose id is `id`; when the current pointer is `id` it becomes
`updatedConversations[0]?.id || null` (so the first remaining conversation's
id, with an empty-string id collapsing to `null`); persist the result. -/
def deleteConversation (st : ChatState) (id : String) : ChatState :=
  let updatedConversations := st.conversations.filter (fun conv => ¬ conv.id = id)
  let newCurrent : Option String :=
    if st.currentConversationId = some id then
      match updatedConversations.head? with
      | some conv => if conv.id = "" then none else some conv.id
      | none => none
    else st.currentConversationId
  { st with conversations := updatedConversations,
            currentConversationId := newCurrent,
            storage := saveConversationsToLocal st.storage updatedConversations }

/-- `renameConversation` (`ChatContext.tsx:326-334`). -/
def renameConversation (st : ChatState) (id : String) (newTitle : String) : ChatState :=
  let updatedConversations := st.conversations.map (fun conv =>
    if conv.id = id then { conv with title := newTitle } else conv)
  { st with conversations := updatedConversations,
            storage := saveConversationsToLocal st.storage updatedConversations }

/-- `toggleConversationPin` (`ChatContext.tsx:336-344`); `!conv.pinned` on an
absent `pinned` gives `true`. -/
def toggleConversationPin (st : ChatState) (id : String) : ChatState :=
  let updatedConversations := st.conversations.map (fun conv =>
    if conv.id = id then { conv with pinned := some (!(truthy conv.pinned)) } else conv)
  { st with conversations := updatedConversations,
            storage := saveConversationsToLocal st.storage updatedConversations }

/-- `clearAllConversations` (`ChatContext.tsx:346-349`): empty the in-memory
collection and reset the pointer.  Note there is no
`saveConversationsToLocal` call in its body — the store is left untouched. -/
def clearAllConversations (st : ChatState) : ChatState :=
  { st with conversations := [], currentConversationId := none }

/-! ## Title derivation (`generateTitleFromMessage`)

The function exists twice in the source with identical bodies
(`ChatContext.tsx:235-252` and `ChatInterface.tsx:423-432`); one definition
models both.  A JS string is
modelled by its list of UTF-16 code units, so that `charAt`, `slice`,
`substring` and `length` are the list operations.  `toUpperCase` /
`toLowerCase` are modelled by the single-code-unit ASCII simple case map:
this is exact for code units below 128, but JS full Unicode case conversion
has length-changing mappings outside ASCII (`"ß".toUpperCase() = "SS"`,
which a code-unit-to-code-unit map cannot represent, and which in the source
lets capitalisation push a 50-unit title past the truncation threshold).
Title theorems that involve case conversion therefore quantify only over
ASCII inputs, where the model coincides with the source. -/

/-- UTF-16 code units of a Lean string literal (used for ASCII literals). -/
def codesOfString (s : String) : List Nat := s.toList.map Char.toNat

/-- The whitespace class of JS `String.prototype.trim`: the ECMAScript
WhiteSpace code points (TAB, LF, VT, FF, CR, SP, NBSP, Ogham space mark,
the en-quad–hair-space range U+2000–U+200A, narrow NBSP, medium mathematical
space, ideographic space, BOM) together with the LineTerminators LS and
PS. -/
def isJsSpace (c : Nat) : Bool :=
  c = 32 || c = 9 || c = 10 || c = 11 || c = 12 || c = 13 || c = 160 ||
  c = 0x1680 || (0x2000 ≤ c && c ≤ 0x200A) || c = 0x202F || c = 0x205F ||
  c = 0x3000 || c = 0x2028 || c = 0x2029 || c = 0xFEFF

/-- `String.prototype.trim`. -/
def jsTrim (s : List Nat) : List Nat :=
  (s.dropWhile isJsSpace).rdropWhile isJsSpace

/-- `toLowerCase` on a code unit — the ASCII simple case map, exact for
code units below 128 (see the section comment for the non-ASCII caveat). -/
def toLowerCode (c : Nat) : Nat := if 65 ≤ c ∧ c ≤ 90 then c + 32 else c

/-- `charAt(0).toUpperCase()` on a code unit — the ASCII simple case map,
exact for code units below 128 (see the section comment for the non-ASCII
caveat: JS maps `'ß'` to `"SS"`). -/
def toUpperCode (c : Nat) : Nat := if 97 ≤ c ∧ c ≤ 122 then c - 32 else c

/-- Case-insensitive anchored match of a pattern against the start of the
input, one code unit at a time (the semantics of a literal alternative in an
`/^(...)/i` regex). -/
def matchesCI : List Nat → List Nat → Bool
  | [], _ => true
  | _ :: _, [] => false
  | p :: ps, c :: cs => toLowerCode p = toLowerCode c && matchesCI ps cs

/-- The alternatives of
`/^(please|can you|could you|help me|i need|analyze|review|check)/i`, in
source order (a JS regex alternation takes the first alternative that
matches). -/
def fillerTokens : List (List Nat) :=
  [codesOfString "please", codesOfString "can you", codesOfString "could you",
   codesOfString "help me", codesOfString "i need", codesOfString "analyze",
   codesOfString "review", codesOfString "check"]

/-- Whether some filler alternative matches at the start of `s`. -/
def hasLeadingFiller (s : List Nat) : Bool :=
  fillerTokens.any (fun t => matchesCI t s)

/-- `title.replace(/^(please|...)/i, '')`: remove the first matching
alternative, if any. -/
def stripLeadingFiller (s : List Nat) : List Nat :=
  match fillerTokens.find? (fun t => matchesCI t s) with
  | some t => s.drop t.length
  | none => s

/-- `title.charAt(0).toUpperCase() + title.slice(1)`. -/
def capitalizeJs : List Nat → List Nat
  | [] => []
  | c :: cs => toUpperCode c :: cs

/-- `generateTitleFromMessage` (`ChatContext.tsx:235-252`; the identical copy
is `ChatInterface.tsx:423-432`): trim, strip one leading filler token
case-insensitively, trim, truncate to 47 code units plus `...` when longer
than 50, capitalise the first character, and fall back to the sentinel
`"New Chat"` when empty. -/
def generateTitleFromMessage (message : List Nat) : List Nat :=
  let title := jsTrim message
  let title := jsTrim (stripLeadingFiller title)
  let title := if title.length > 50 then title.take 47 ++ codesOfString "..." else title
  let title := capitalizeJs title
  if title = [] then codesOfString "New Chat" else title

/-- Bridge used by the message handlers: titles of `String`-typed messages. -/
def generateTitleString (message : String) : String :=
  String.mk ((generateTitleFromMessage (codesOfString message)).map Char.ofNat)

/-! ## Streaming exchange (`ChatInterface.tsx`)

The SSE read loop appends transport bytes to a rolling buffer, splits on
newlines, keeps the trailing incomplete line, and JSON-parses every complete
line that starts with `data: `.  The embedding works at the granularity of
those complete `data: ` lines: a stream is the ordered list of their parse
results (`StreamLine`), and a transport chunk boundary has no further
effect. -/

/-- A parsed `data: ` line: a JS object whose `chunk`/`done`/`full_response`
/`analysis`/`error` properties are each independently present or absent (the
loop tests them with three separate `if`s, so one line may carry several). -/
structure StreamEvent where
  chunk : Option String := none
  done : Option Bool := none
  full_response : Option String := none
  analysis : Option Analysis := none
  error : Option String := none
deriving DecidableEq, Repr

/-- The result of one complete stream line: a parsed `data: ` event, or a
line that is skipped (not `data: `-prefixed, or malformed JSON whose parse
error is caught at `ChatInterface.tsx:346` and logged). -/
inductive StreamLine where
  | parsed (e : StreamEvent) : StreamLine
  | skip : StreamLine
deriving DecidableEq, Repr

/-- The environment's response to one `/api/analyze` request:
`httpError` models a failed fetch or a non-2xx response (the thrown error
reaches the handler's outer catch before any placeholder exists);
`stream events aborted` models a 200 body that yields the given complete
lines, after which the reader either signals end-of-stream
(`aborted = false`) or throws mid-read (`aborted = true`, reaching the outer
catch). -/
inductive FetchOutcome where
  | httpError : FetchOutcome
  | stream (events : List StreamLine) (aborted : Bool) : FetchOutcome
deriving DecidableEq, Repr

/-- Component-level state of `ChatInterface`: the context state plus the
`isLoading` flag, the `isStreamingRef` ref and the `forceRender` counter. -/
structure UIState where
  chat : ChatState
  isLoading : Bool
  isStreamingRef : Bool
  forceRender : Nat

/-- Body of a `/api/analyze` request (`{message, session_id, streaming: true}`). -/
structure AnalyzeRequest where
  message : String
  session_id : Option String
deriving DecidableEq, Repr

/-- A network request issued by a handler. -/
inductive Request where
  | analyze (r : AnalyzeRequest) : Request
  | upload (fileName : String) : Request
deriving DecidableEq, Repr

/-- A handler run: final component state, the chat states after each
`updateCurrentMessages` call in order, and the requests issued. -/
structure RunResult where
  ui : UIState
  commits : List ChatState
  requests : List Request

/-- Perform one `updateCurrentMessages` call and record the resulting state. -/
def pushCommit (r : RunResult) (newMessages : List Message) (target : Option String)
    (now : Nat) : RunResult :=
  let chat' := updateCurrentMessages r.ui.chat newMessages target now
  { r with ui := { r.ui with chat := chat' }, commits := r.commits ++ [chat'] }

/-- `setIsLoading`. -/
def setLoading (r : RunResult) (b : Bool) : RunResult :=
  { r with ui := { r.ui with isLoading := b } }

/-- `isStreamingRef.current = b`. -/
def setStreamingRef (r : RunResult) (b : Bool) : RunResult :=
  { r with ui := { r.ui with isStreamingRef := b } }

/-- `setForceRender(prev => prev + 1)`. -/
def bumpForceRender (r : RunResult) : RunResult :=
  { r with ui := { r.ui with forceRender := r.ui.forceRender + 1 } }

/-- Record an issued network request. -/
def pushRequest (r : RunResult) (q : Request) : RunResult :=
  { r with requests := r.requests ++ [q] }

/-- JS truthiness of a possibly-absent string property. -/
def truthyStr (o : Option String) : Bool := !(o.getD "" == "")

/-- The streaming placeholder / chunk-fold message
(`{id, type: 'assistant', content, analysis: null, timestamp, isStreaming: true}`). -/
def streamingAssistantMessage (aid : MsgId) (content : String) (now : Nat) : Message :=
  { id := aid, type := .assistant, content := content, analysis := some none,
    timestamp := now, isStreaming := some true }

/-- The message committed on a `done` event:
`content = data.full_response || streamingContent`,
`analysis = data.analysis || null`, `isStreaming: false`. -/
def doneAssistantMessage (aid : MsgId) (content : String) (analysis : Option Analysis)
    (now : Nat) : Message :=
  { id := aid, type := .assistant, content := content, analysis := some analysis,
    timestamp := now, isStreaming := some false }

/-- The defensive-completion message committed at end-of-stream
(content = accumulated buffer, `analysis: null`, `isStreaming: false`). -/
def bufferAssistantMessage (aid : MsgId) (content : String) (now : Nat) : Message :=
  { id := aid, type := .assistant, content := content, analysis := some none,
    timestamp := now, isStreaming := some false }

/-- The fixed apology message committed by an outer catch
(`{id: Date.now()+1, type: 'assistant', content, isError: true, timestamp}`). -/
def apologyAssistantMessage (idNum : Nat) (text : String) (now : Nat) : Message :=
  { id := .num idNum, type := .assistant, content := text, isError := some true,
    timestamp := now }

/-- State threaded through the read loop of one exchange. -/
structure StreamFold where
  run : RunResult
  cid : Option String
  base : List Message
  aid : MsgId
  now : Nat
  messagesWithStreaming : List Message
  streamingContent : String

/-- Process one complete stream line (`ChatInterface.tsx:301-350`):
`data.chunk` appends to the buffer and re-commits the placeholder;
`data.done` commits the final message (`full_response` authoritative unless
falsy) and clears the flags; `data.error` throws at `:344`, but that throw is
caught by the enclosing per-line `catch (parseError)` at `:346`, which only
logs — so an error event changes no state and the loop continues. -/
def processStreamLine (fs : StreamFold) : StreamLine → StreamFold
  | .skip => fs
  | .parsed data =>
    let fs :=
      if truthyStr data.chunk then
        let sc := fs.streamingContent ++ data.chunk.getD ""
        let r := pushCommit fs.run (fs.base ++ [streamingAssistantMessage fs.aid sc fs.now])
          fs.cid fs.now
        { fs with run := bumpForceRender r, streamingContent := sc }
      else fs
    let fs :=
      if truthy data.done then
        let content := jsOrString (data.full_response.getD "") fs.streamingContent
        let r := setLoading (setStreamingRef fs.run false) false
        let r := pushCommit r
          (fs.base ++ [doneAssistantMessage fs.aid content data.analysis fs.now]) fs.cid fs.now
        { fs with run := r }
      else fs
    fs

/-- The end-of-stream step (`ChatInterface.tsx:272-288`): clear the flags,
then — when content was accumulated and the *original placeholder array*
`messagesWithStreaming` holds no non-streaming message with the assistant id
(it never does: it was captured before any fold) — commit the accumulated
buffer as the final message. -/
def finishStream (fs : StreamFold) : StreamFold :=
  let r := setLoading (setStreamingRef fs.run false) false
  if !(fs.streamingContent == "") &&
     !(fs.messagesWithStreaming.any (fun m => m.id == fs.aid && !(truthy m.isStreaming))) then
    { fs with
      run := pushCommit r (fs.base ++ [bufferAssistantMessage fs.aid fs.streamingContent fs.now])
        fs.cid fs.now }
  else { fs with run := r }

/-- The shared post-request part of an exchange: on `httpError` the outer
catch replaces nothing and appends the apology message; on a 200 stream, the
placeholder is committed, the lines are folded, and then either the outer
catch appends the apology (`aborted`) or the end-of-stream step runs; the
`finally` clause clears both flags.  (`handleRegenerateResponse` and
`handleEditLastUserMessage` additionally call `setIsLoading(false)` inside
their catch before committing; the `finally` clause makes the resulting
state identical, and commits record only chat state.) -/
def runExchangeStream (r0 : RunResult) (cid : Option String) (base : List Message)
    (assistantMessageId : Nat) (now : Nat) (apology : String) (outcome : FetchOutcome) :
    RunResult :=
  let aid := MsgId.num assistantMessageId
  match outcome with
  | .httpError =>
    let r := setStreamingRef r0 false
    let r := pushCommit r (base ++ [apologyAssistantMessage assistantMessageId apology now])
      cid now
    setLoading (setStreamingRef r false) false
  | .stream events aborted =>
    let placeholder := streamingAssistantMessage aid "" now
    let r1 := pushCommit r0 (base ++ [placeholder]) cid now
    let r1 := setStreamingRef r1 true
    let fs0 : StreamFold :=
      { run := r1, cid := cid, base := base, aid := aid, now := now,
        messagesWithStreaming := base ++ [placeholder], streamingContent := "" }
    let fs1 := events.foldl processStreamLine fs0
    let r2 :=
      if aborted then
        let r := setStreamingRef fs1.run false
        pushCommit r (base ++ [apologyAssistantMessage assistantMessageId apology now]) cid now
      else (finishStream fs1).run
    setLoading (setStreamingRef r2 false) false

/-- The file argument of `handleSendMessage`: metadata plus the
`/api/upload` outcome (`some content` on success, `none` when the upload or
extraction fails and the placeholder content string is substituted). -/
structure FileArg where
  name : String
  size : Nat
  type : String
  extracted : Option String
deriving DecidableEq, Repr

/-- Apology string of the send path (`ChatInterface.tsx:360`). -/
def sendApology : String :=
  "I apologize, but I encountered an error processing your request. Please try again."

/-- Apology string of the regenerate path (`ChatInterface.tsx:595`). -/
def regenerateApology : String :=
  "I apologize, but I encountered an error regenerating the response. Please try again."

/-- Apology string of the edit-resend path (`ChatInterface.tsx:790`). -/
def editApology : String :=
  "I apologize, but I encountered an error processing your edited message. Please try again."

/-- `message + '\n\n=== FILE CONTENT ===\n' + fileContent + '\n=== END FILE CONTENT ==='`. -/
def fileContentFrame (effectiveMessage fileContent : String) : String :=
  effectiveMessage ++ "\n\n=== FILE CONTENT ===\n" ++ fileContent ++ "\n=== END FILE CONTENT ==="

/-- The auto-naming condition of `handleSendMessage`
(`ChatInterface.tsx:172-173`): first user message of a conversation (from the
render-time snapshots) whose title is still the sentinel. -/
def sendAutoNameCond (conversationsSnapshot : List Conversation)
    (messagesSnapshot : List Message) (conversationId : String) : Bool :=
  messagesSnapshot.length == 0 &&
  (match conversationsSnapshot.find? (fun c => c.id = conversationId) with
   | some c => c.title == "New Chat"
   | none => false)

/-- The lazy-creation step of `handleSendMessage`
(`ChatInterface.tsx:138-144`): reuse the current conversation, or create one
on the first message from the homepage. -/
def sendCreatedPair (ui : UIState) (now : Nat) : ChatState × String :=
  match ui.chat.currentConversationId with
  | some cid => (ui.chat, cid)
  | none => createConversationOnFirstMessage ui.chat now

/-- The part of `handleSendMessage` (`ChatInterface.tsx:129-232`) before the
`/api/analyze` request is answered: snapshots, lazy conversation creation,
the optimistic user-message commit, auto-naming, and file processing.
Returns the run so far, the conversation id used for the exchange, and
`newMessages` (the base list every later commit replaces into). -/
def handleSendMessageBefore (ui : UIState) (message : String) (file : Option FileArg)
    (attachments : Option (List Attachment)) (now : Nat) : RunResult × String × List Message :=
    let conversationsSnapshot := ui.chat.conversations
    let messagesSnapshot := currentMessages ui.chat
    let createdPair := sendCreatedPair ui now
    let conversationId := createdPair.2
    let effectiveMessage :=
      jsOrString message "Please analyze this uploaded file for compliance."
    let userMessage : Message :=
      { id := .num now, type := .user, content := effectiveMessage,
        file := file.map (fun f => { name := f.name, content := some "" }),
        attachments := attachments, timestamp := now }
    let newMessages := messagesSnapshot ++ [userMessage]
    let r : RunResult := { ui := { ui with chat := createdPair.1 }, commits := [], requests := [] }
    let r := pushCommit r newMessages (some conversationId) now
    let r := setLoading r true
    let r := bumpForceRender r
    let r :=
      if sendAutoNameCond conversationsSnapshot messagesSnapshot conversationId then
        { r with ui := { r.ui with
            chat := updateConversationTitle r.ui.chat conversationId
              (generateTitleString effectiveMessage) } }
      else r
    let uploadStep :=
      match file with
      | none => (r, "")
      | some f =>
        let r := { r with ui := { r.ui with chat := addFile r.ui.chat f.name f.size f.type now } }
        let r := pushRequest r (.upload f.name)
        match f.extracted with
        | some c => (r, c)
        | none => (r, "[File: " ++ f.name ++ " - Content extraction failed]")
    let r := uploadStep.1
    let fileContent := uploadStep.2
    let analyzeBody :=
      if fileContent ≠ "" then fileContentFrame effectiveMessage fileContent else effectiveMessage
    let r := pushRequest r (.analyze { message := analyzeBody, session_id := some conversationId })
    (r, conversationId, newMessages)

/-- `handleSendMessage` (`ChatInterface.tsx:129-370`): the empty-input early
return, then the pre-request phase followed by the streaming exchange.
`now` models the handler's `Date.now()` clock; `outcome` the analyze
endpoint's behaviour. -/
def handleSendMessage (ui : UIState) (message : String) (file : Option FileArg)
    (attachments : Option (List Attachment)) (now : Nat) (outcome : FetchOutcome) : RunResult :=
  if message = "" ∧ file = none then { ui := ui, commits := [], requests := [] }
  else
    let pre := handleSendMessageBefore ui message file attachments now
    runExchangeStream pre.1 (some pre.2.1) pre.2.2 (now + 1) now sendApology outcome

/-- Pre-request phase of `handleRegenerateResponse`
(`ChatInterface.tsx:434-471`): locate the target message, require a
preceding user message (else `none`, the handler's early return), truncate
to exclude the target and everything after it, and build the request from
the user message's content and file. -/
def handleRegenerateBefore (ui : UIState) (target : MsgId) (now : Nat) :
    Option (RunResult × List Message) :=
  let messages := currentMessages ui.chat
  match messages.findIdx? (fun msg => msg.id = target) with
  | none => none
  | some messageIndex =>
    if messageIndex = 0 then none
    else
      match messages[messageIndex - 1]? with
      | none => none
      | some userMessage =>
        if userMessage.type ≠ MsgType.user then none
        else
          let updatedMessages := messages.take messageIndex
          let r := pushCommit { ui := ui, commits := [], requests := [] } updatedMessages
            ui.chat.currentConversationId now
          let r := setLoading r true
          let r := bumpForceRender r
          let analyzeBody :=
            match userMessage.file with
            | some f => fileContentFrame userMessage.content (f.content.getD "undefined")
            | none => userMessage.content
          let r := pushRequest r
            (.analyze { message := analyzeBody, session_id := ui.chat.currentConversationId })
          some (r, updatedMessages)

/-- The early-return cases of `handleRegenerateResponse` happen before its
`try`, so they change nothing; otherwise the truncation commit and the
exchange run. -/
def handleRegenerateResponse (ui : UIState) (target : MsgId) (now : Nat)
    (outcome : FetchOutcome) : RunResult :=
  match handleRegenerateBefore ui target now with
  | none => { ui := ui, commits := [], requests := [] }
  | some pre =>
    runExchangeStream pre.1 ui.chat.currentConversationId pre.2 (now + 1) now
      regenerateApology outcome

/-- Index of the last `user` message, scanning from the end
(`ChatInterface.tsx:612-618`). -/
def lastUserIndex (messages : List Message) : Option Nat :=
  ((messages.enum.filter (fun p => p.2.type = MsgType.user)).map (fun p => p.1)).getLast?

/-- Pre-request phase of `handleEditLastUserMessage`
(`ChatInterface.tsx:607-652`): replace the last user message's content,
truncate everything after it (`none` when no user message exists), and
build the request body.  The handler's catch path recomputes the same
truncation from the unchanged snapshot, so it commits
`updatedMessages ++ [apology]` exactly as the shared exchange step does. -/
def handleEditBefore (ui : UIState) (newText : String) (now : Nat) :
    Option (RunResult × List Message) :=
  let messages := currentMessages ui.chat
  match lastUserIndex messages with
  | none => none
  | some lastUserIdx =>
    match messages[lastUserIdx]? with
    | none => none
    | some lastUser =>
      let editedUser := { lastUser with content := newText }
      let updatedMessages := messages.take lastUserIdx ++ [editedUser]
      let r := pushCommit { ui := ui, commits := [], requests := [] } updatedMessages
        ui.chat.currentConversationId now
      let r := setLoading r true
      let r := bumpForceRender r
      let analyzeBody :=
        match editedUser.file with
        | some f => fileContentFrame editedUser.content (f.content.getD "")
        | none => editedUser.content
      let r := pushRequest r
        (.analyze { message := analyzeBody, session_id := ui.chat.currentConversationId })
      some (r, updatedMessages)

/-- The no-user-message early `return` of `handleEditLastUserMessage` sits
inside its `try`, so the `finally` clause still clears both flags; otherwise
the edit commit and the exchange run. -/
def handleEditLastUserMessage (ui : UIState) (newText : String) (now : Nat)
    (outcome : FetchOutcome) : RunResult :=
  match handleEditBefore ui newText now with
  | none =>
    { ui := { ui with isLoading := false, isStreamingRef := false }, commits := [], requests := [] }
  | some pre =>
    runExchangeStream pre.1 ui.chat.currentConversationId pre.2 (now + 1) now
      editApology outcome

/-! ## Sequential scripts of UI actions (for the cross-exchange invariant) -/

/-- One sequential (non-overlapping) UI action with its clock value and the
backend's response. -/
inductive ChatOp where
  | send (message : String) (file : Option FileArg) (attachments : Option (List Attachment))
      (now : Nat) (outcome : FetchOutcome) : ChatOp
  | regenerate (target : MsgId) (now : Nat) (outcome : FetchOutcome) : ChatOp
  | editLast (newText : String) (now : Nat) (outcome : FetchOutcome) : ChatOp

/-- Run one action. -/
def runChatOp (ui : UIState) : ChatOp → RunResult
  | .send m f a now o => handleSendMessage ui m f a now o
  | .regenerate t now o => handleRegenerateResponse ui t now o
  | .editLast s now o => handleEditLastUserMessage ui s now o

/-- Run a sequence of actions, collecting every `updateCurrentMessages`
commit in order. -/
def runChatOps (ui : UIState) : List ChatOp → UIState × List ChatState
  | [] => (ui, [])
  | op :: ops =>
    let r := runChatOp ui op
    let rest := runChatOps r.ui ops
    (rest.1, r.commits ++ rest.2)

/-- JS truthiness of `isStreaming`. -/
def isStreamingMsg (m : Message) : Bool := truthy m.isStreaming

/-- Number of streaming messages in a message list. -/
def streamingCount (ms : List Message) : Nat := (ms.filter isStreamingMsg).length

/-- No message of the list is streaming. -/
def noStreamingB (ms : List Message) : Bool := ms.all (fun m => !(isStreamingMsg m))

/-- Every conversation of the state has at most one streaming message. -/
def atMostOneStreamingB (st : ChatState) : Bool :=
  st.conversations.all (fun c => streamingCount c.messages ≤ 1)

/-- Every conversation of the state has no streaming message. -/
def cleanChatB (st : ChatState) : Bool :=
  st.conversations.all (fun c => noStreamingB c.messages)

/-- Every numeric message id in the state is below `t`. -/
def msgIdBelow (t : Nat) (m : Message) : Bool :=
  match m.id with
  | .num n => n < t
  | .str _ => true

/-- All numeric message ids of the state are below `t`. -/
def idsBelowB (st : ChatState) (t : Nat) : Bool :=
  st.conversations.all (fun c => c.messages.all (msgIdBelow t))

/-- The chunk text a stream line contributes to the accumulated buffer. -/
def lineChunk : StreamLine → String
  | .parsed e => e.chunk.getD ""
  | .skip => ""

/-- Whether a stream line is a truthy `done` event. -/
def lineHasDone : StreamLine → Bool
  | .parsed e => truthy e.done
  | .skip => false

/-- The exchange reaches a non-streaming terminal commit: the request fails,
the reader aborts (outer catch), a `done` event arrives, or nonempty chunk
content accumulates (defensive completion). -/
def outcomeTerminates : FetchOutcome → Bool
  | .httpError => true
  | .stream events aborted =>
    aborted || events.any lineHasDone || events.any (fun l => !(lineChunk l == ""))

/-- The clock value of an action. -/
def opNow : ChatOp → Nat
  | .send _ _ _ now _ => now
  | .regenerate _ now _ => now
  | .editLast _ now _ => now

/-- The action's exchange terminates. -/
def opTerminates : ChatOp → Bool
  | .send _ _ _ _ o => outcomeTerminates o
  | .regenerate _ _ o => outcomeTerminates o
  | .editLast _ _ o => outcomeTerminates o

/-- Clock validity of a script: each action's `Date.now()` is at least the
running clock, and leaves room for the two ids `now` and `now + 1` it mints
(`Date.now()` is non-decreasing, and distinct sequential exchanges observe
distinct timestamps). -/
def timeOKB : Nat → List ChatOp → Bool
  | _, [] => true
  | t, op :: ops => (decide (t ≤ opNow op)) && timeOKB (opNow op + 2) ops

/-- The running clock after a script: each action advances it past the two
ids it mints. -/
def endClock : Nat → List ChatOp → Nat
  | t, [] => t
  | _, op :: ops => endClock (opNow op + 2) ops

/-- A stream line carrying exactly a `chunk` event. -/
def chunkLine (s : String) : StreamLine := .parsed { chunk := some s }

/-- A fresh browser state: no conversations, homepage, empty store. -/
def emptyChatState : ChatState :=
  { conversations := [], currentConversationId := none, uploadedFiles := [],
    storage := { hasWindow := true, entries := [] } }

/-- The component state right after first mount. -/
def freshUIState : UIState :=
  { chat := emptyChatState, isLoading := false, isStreamingRef := false, forceRender := 0 }

/-! ## Concrete fixtures used by counterexamples and witnesses -/

/-- A state whose only conversation is `"a"`, which is also current. -/
def switchDemoState : ChatState :=
  { conversations := [{ id := "a", title := "T", messages := [], createdAt := 0, updatedAt := 0 }],
    currentConversationId := some "a", uploadedFiles := [],
    storage := { hasWindow := true, entries := [] } }

/-- A persisted conversation used by the clear-all counterexample. -/
def clearDemoConv : Conversation :=
  { id := "1", title := "T", messages := [], createdAt := 0, updatedAt := 0, pinned := some false }

/-- A state holding `clearDemoConv` both in memory and in the store. -/
def clearDemoState : ChatState :=
  { conversations := [clearDemoConv], currentConversationId := some "1", uploadedFiles := [],
    storage := saveConversationsToLocal { hasWindow := true, entries := [] } [clearDemoConv] }

/-- A valid conversation (with `Date`-typed `createdAt`/`updatedAt`) for the
persistence round-trip counterexample. -/
def rtDemoConv : Conversation :=
  { id := "1", title := "New Chat", messages := [], createdAt := 5, updatedAt := 5,
    pinned := some false }

/-- An empty in-browser store. -/
def rtStore : LocalStorage := { hasWindow := true, entries := [] }

/-- Two conversations with the first one current, for the delete witness. -/
def delDemoState : ChatState :=
  { conversations :=
      [{ id := "a", title := "A", messages := [], createdAt := 0, updatedAt := 0 },
       { id := "b", title := "B", messages := [], createdAt := 1, updatedAt := 1 }],
    currentConversationId := some "a", uploadedFiles := [],
    storage := { hasWindow := true, entries := [] } }

/-- The analysis object carried by the `done` event of the terminal-precedence
scenario. -/
def c1Analysis : Analysis := { summary := some "s" }

/-- Stream of the terminal-precedence scenario: chunks accumulate to
`"partial"`, then a `done` event carries `full_response = "final"` and an
analysis, then the transport signals end-of-stream. -/
def c1Events : List StreamLine :=
  [.parsed { chunk := some "partial" },
   .parsed { done := some true, full_response := some "final", analysis := some c1Analysis }]

/-- Stream of the error-event scenario: a well-formed
`data: {"error": "boom"}` line followed by a chunk line. -/
def c2Events : List StreamLine :=
  [.parsed { error := some "boom" }, .parsed { chunk := some "x" }]

/-- Two sequential sends whose streams end without any event: the first
leaves a stale streaming placeholder, the second adds another one. -/
def c3Ops : List ChatOp :=
  [.send "a" none none 100 (.stream [] false),
   .send "b" none none 200 (.stream [] false)]

/-- A single send whose stream answers with one `done` event: a terminating
exchange script. -/
def c3WitnessOps : List ChatOp :=
  [.send "hi" none none 100 (.stream [.parsed { done := some true }] false)]

/-- Both ends of the list are free of JS whitespace. -/
def JsTrimmed (l : List Nat) : Prop :=
  l.dropWhile isJsSpace = l ∧ l.rdropWhile isJsSpace = l

/-! ## Invariants used to verify the streaming-message property -/

/-- Every conversation except possibly the one with id `t` has no streaming
message. -/
def almostCleanB (st : ChatState) (t : String) : Bool :=
  st.conversations.all (fun c => noStreamingB c.messages || (c.id == t))

/-- Every conversation with id `t` consists of `base` plus one trailing
non-streaming message. -/
def targetBaseClean (st : ChatState) (t : String) (base : List Message) : Prop :=
  ∀ c ∈ st.conversations, c.id = t → ∃ m, c.messages = base ++ [m] ∧ isStreamingMsg m = false

/-- Invariant on a handler run-in-progress committing into the conversation
resolved as `t`: the resolution is stable, every conversation except the
target is streaming-free, every conversation holds at most one streaming
message, so does every recorded commit, and all numeric message ids are
below `now0 + 2`. -/
def RunInv (cid0 : Option String) (t : String) (now0 : Nat) (r : RunResult) : Prop :=
  resolveTargetId r.ui.chat cid0 = some t ∧
  almostCleanB r.ui.chat t = true ∧
  atMostOneStreamingB r.ui.chat = true ∧
  r.commits.all atMostOneStreamingB = true ∧
  idsBelowB r.ui.chat (now0 + 2) = true

/-- The invariant threaded through the read loop of one exchange whose
placeholder was appended to `base` in the conversation resolved as `t`
(the handler clock being `now0`, so the assistant id is `now0 + 1`). -/
structure FoldInv (cid0 : Option String) (t : String) (base : List Message) (now0 : Nat)
    (fs : StreamFold) : Prop where
  base_eq : fs.base = base
  cid_eq : fs.cid = cid0
  aid_eq : fs.aid = MsgId.num (now0 + 1)
  now_eq : fs.now = now0
  mws_eq : fs.messagesWithStreaming
    = base ++ [streamingAssistantMessage (MsgId.num (now0 + 1)) "" now0]
  base_clean : noStreamingB base = true
  base_ids : base.all (msgIdBelow (now0 + 1)) = true
  run_inv : RunInv cid0 t now0 fs.run

end EyeQ

namespace EyeQ

/-! # Theorems -/

/-! ## Generic helper lemmas -/

theorem length_zero_eq_empty (b : String) (h : b.length = 0) : b = "" := by
  cases b with
  | mk data =>
    cases data with
    | nil => rfl
    | cons c cs => exact absurd h (Nat.succ_ne_zero _)

theorem append_ne_empty_of_right (a b : String) (h : b ≠ "") : a ++ b ≠ "" := by
  intro hc
  have hl := congrArg String.length hc
  simp [String.length_append] at hl
  exact h (length_zero_eq_empty b hl.2)

theorem find?_map_set (l : List (String × JsValue)) (k : String) (v : JsValue)
    (h : (l.find? (fun e => e.1 = k)).isSome = true) :
    (l.map (fun e => if e.1 = k then (k, v) else e)).find? (fun e => e.1 = k) = some (k, v) := by
  induction l with
  | nil => simp at h
  | cons e es ih =>
    by_cases he : e.1 = k
    · simp [List.find?_cons, he]
    · rw [List.find?_cons_of_neg _ (by simp [he])] at h
      simpa [he, List.find?_cons_of_neg] using ih h

theorem find?_append_single (l : List (String × JsValue)) (k : String) (v : JsValue)
    (h : (l.find? (fun e => e.1 = k)).isSome = false) :
    (l ++ [(k, v)]).find? (fun e => e.1 = k) = some (k, v) := by
  induction l with
  | nil => simp
  | cons e es ih =>
    by_cases he : e.1 = k
    · simp [List.find?_cons, he] at h
    · rw [List.find?_cons_of_neg _ (by simp [he])] at h
      simpa [he, List.find?_cons_of_neg] using ih h

/-! ## Persistent Store lemmas -/

theorem getItem_setItem (s : LocalStorage) (k : String) (v : JsValue) :
    (s.setItem k v).getItem k = some v := by
  unfold LocalStorage.setItem LocalStorage.getItem
  by_cases h : (s.entries.find? (fun e => e.1 = k)).isSome
  · simp only [h, if_true]
    rw [find?_map_set s.entries k v h]
    rfl
  · simp only [Bool.not_eq_true] at h
    simp only [h, Bool.false_eq_true, if_false]
    rw [find?_append_single s.entries k v h]
    rfl

theorem hasWindow_setItem (s : LocalStorage) (k : String) (v : JsValue) :
    (s.setItem k v).hasWindow = s.hasWindow := by
  unfold LocalStorage.setItem
  by_cases h : (s.entries.find? (fun e => e.1 = k)).isSome <;> simp [h]

theorem getItem_save (s : LocalStorage) (k : String) (v : JsValue) (h : s.hasWindow = true) :
    (saveToLocalStorage s k v).getItem k = some (stringifyValue v) := by
  unfold saveToLocalStorage
  rw [h]
  simpa using getItem_setItem s k (stringifyValue v)

theorem getItem_saveConversations (s : LocalStorage) (cs : List Conversation)
    (h : s.hasWindow = true) :
    (saveConversationsToLocal s cs).getItem STORAGE_KEY_CONVERSATIONS
      = some (stringifyValue (conversationsJson cs)) :=
  getItem_save s STORAGE_KEY_CONVERSATIONS (conversationsJson cs) h

theorem hasWindow_save (s : LocalStorage) (k : String) (v : JsValue) :
    (saveToLocalStorage s k v).hasWindow = s.hasWindow := by
  unfold saveToLocalStorage
  by_cases h : s.hasWindow <;> simp [h, hasWindow_setItem]

mutual

theorem stringifyValue_of_dateFree (v : JsValue) (h : dateFree v = true) :
    stringifyValue v = v :=
  match v, h with
  | .null, _ => rfl
  | .bool _, _ => rfl
  | .num _, _ => rfl
  | .str _, _ => rfl
  | .date _, h => Bool.noConfusion h
  | .arr l, h => by
      rw [stringifyValue, stringifyList_of_dateFree l (by simpa [dateFree] using h)]
  | .obj l, h => by
      rw [stringifyValue, stringifyFields_of_dateFree l (by simpa [dateFree] using h)]

theorem stringifyList_of_dateFree (l : List JsValue) (h : dateFreeList l = true) :
    stringifyList l = l :=
  match l, h with
  | [], _ => rfl
  | v :: vs, h => by
      have hh := (Bool.and_eq_true _ _).mp (by simpa [dateFreeList] using h)
      rw [stringifyList, stringifyValue_of_dateFree v hh.1, stringifyList_of_dateFree vs hh.2]

theorem stringifyFields_of_dateFree (l : List (String × JsValue)) (h : dateFreeFields l = true) :
    stringifyFields l = l :=
  match l, h with
  | [], _ => rfl
  | (k, v) :: kvs, h => by
      have hh := (Bool.and_eq_true _ _).mp (by simpa [dateFreeFields] using h)
      rw [stringifyFields, stringifyValue_of_dateFree v hh.1, stringifyFields_of_dateFree kvs hh.2]

end

/-! ## String join lemmas -/

theorem foldl_string_append_shift (l : List String) :
    ∀ a b : String, List.foldl (fun r s => r ++ s) (a ++ b) l
      = a ++ List.foldl (fun r s => r ++ s) b l := by
  induction l with
  | nil => intro a b; rfl
  | cons c rest ih =>
    intro a b
    simp only [List.foldl_cons]
    rw [String.append_assoc, ih]

theorem string_join_cons (c : String) (rest : List String) :
    String.join (c :: rest) = c ++ String.join rest := by
  show List.foldl (fun r s => r ++ s) ("" ++ c) rest = c ++ String.join rest
  have h1 : "" ++ c = c ++ "" := by rw [String.append_empty]; rfl
  rw [h1, foldl_string_append_shift rest c ""]
  rfl

theorem foldl_chunkLines_streamingContent (cs : List String) :
    ∀ fs : StreamFold,
      ((cs.map chunkLine).foldl processStreamLine fs).streamingContent
        = fs.streamingContent ++ String.join cs := by
  induction cs with
  | nil => intro fs; simp [String.join]
  | cons c rest ih =>
    intro fs
    simp only [List.map_cons, List.foldl_cons]
    rw [ih]
    by_cases hc : c = ""
    · subst hc
      simp [processStreamLine, chunkLine, truthyStr, truthy, String.join]
    · have hb : (c == "") = false := by simpa using hc
      simp [processStreamLine, chunkLine, truthyStr, truthy, hb, string_join_cons,
        String.append_assoc]

/-! ## Title-derivation lemmas -/

theorem toUpperCode_toUpperCode (c : Nat) : toUpperCode (toUpperCode c) = toUpperCode c := by
  unfold toUpperCode
  split_ifs with h1 h2 <;> omega

theorem isJsSpace_toUpperCode (c : Nat) : isJsSpace (toUpperCode c) = isJsSpace c := by
  unfold toUpperCode
  split_ifs with h1
  · have hL : isJsSpace (c - 32) = false := by
      unfold isJsSpace
      simp only [Bool.or_eq_false_iff, Bool.and_eq_false_iff, decide_eq_false_iff_not,
        Nat.not_le]
      omega
    have hR : isJsSpace c = false := by
      unfold isJsSpace
      simp only [Bool.or_eq_false_iff, Bool.and_eq_false_iff, decide_eq_false_iff_not,
        Nat.not_le]
      omega
    rw [hL, hR]
  · rfl

theorem head_not_space_of_dropWhile_eq (c : Nat) (cs : List Nat)
    (h : (c :: cs).dropWhile isJsSpace = c :: cs) : isJsSpace c = false := by
  by_cases hp : isJsSpace c
  · rw [List.dropWhile_cons, if_pos hp] at h
    have hl := congrArg List.length h
    have := (List.dropWhile_suffix (l := cs) isJsSpace).length_le
    simp at hl
    omega
  · exact Bool.eq_false_iff.mpr hp

theorem last_not_space_of_rdropWhile_eq (z : List Nat) (d : Nat)
    (h : (z ++ [d]).rdropWhile isJsSpace = z ++ [d]) : isJsSpace d = false := by
  by_cases hp : isJsSpace d
  · rw [List.rdropWhile_concat_pos _ _ _ hp] at h
    have hl := congrArg List.length h
    have := ( List.rdropWhile_prefix isJsSpace z).length_le
    simp at hl
    omega
  · exact Bool.eq_false_iff.mpr hp

theorem jsTrim_eq_self (l : List Nat) (h : JsTrimmed l) : jsTrim l = l := by
  unfold jsTrim
  rw [h.1, h.2]

theorem jsTrimmed_jsTrim (s : List Nat) : JsTrimmed (jsTrim s) := by
  unfold jsTrim
  constructor
  · cases hx : s.dropWhile isJsSpace with
    | nil => simp
    | cons c cs =>
      have hc : isJsSpace c = false := by
        apply head_not_space_of_dropWhile_eq c cs
        rw [← hx]
        rw [List.dropWhile_idempotent]
      have hpre := List.rdropWhile_prefix isJsSpace (c :: cs)
      obtain ⟨t, ht⟩ := hpre
      cases hr : (c :: cs).rdropWhile isJsSpace with
      | nil => simp
      | cons d ds =>
        rw [hr] at ht
        have hd : d = c := by
          have := congrArg (fun l => l.head?) ht
          simpa using this
        subst hd
        rw [List.dropWhile_cons, if_neg (by simp [hc])]
  · exact List.rdropWhile_idempotent _ _

theorem capitalizeJs_length (l : List Nat) : (capitalizeJs l).length = l.length := by
  cases l <;> simp [capitalizeJs]

theorem capitalizeJs_capitalizeJs (l : List Nat) :
    capitalizeJs (capitalizeJs l) = capitalizeJs l := by
  cases l with
  | nil => rfl
  | cons c cs => simp [capitalizeJs, toUpperCode_toUpperCode]

theorem jsTrimmed_capitalizeJs (l : List Nat) (h : JsTrimmed l) : JsTrimmed (capitalizeJs l) := by
  cases l with
  | nil => exact h
  | cons c cs =>
    have hc : isJsSpace c = false := head_not_space_of_dropWhile_eq c cs h.1
    have hcu : isJsSpace (toUpperCode c) = false := by rw [isJsSpace_toUpperCode]; exact hc
    constructor
    · rw [show capitalizeJs (c :: cs) = toUpperCode c :: cs from rfl,
        List.dropWhile_cons, if_neg (by simp [hcu])]
    · rcases List.eq_nil_or_concat' cs with hnil | ⟨z, d, hz⟩
      · subst hnil
        show List.rdropWhile isJsSpace [toUpperCode c] = [toUpperCode c]
        rw [List.rdropWhile_singleton, if_neg (by simp [hcu])]
      · subst hz
        have hd : isJsSpace d = false := by
          apply last_not_space_of_rdropWhile_eq (c :: z) d
          simpa using h.2
        have hcap : capitalizeJs (c :: (z ++ [d])) = (toUpperCode c :: z) ++ [d] := by
          simp [capitalizeJs]
        rw [hcap, List.rdropWhile_concat_neg _ _ _ (by simp [hd])]

theorem generateTitle_cases (s : List Nat) :
    generateTitleFromMessage s = codesOfString "New Chat" ∨
    ∃ t : List Nat, JsTrimmed t ∧
      generateTitleFromMessage s
        = capitalizeJs (if t.length > 50 then t.take 47 ++ codesOfString "..." else t) ∧
      capitalizeJs (if t.length > 50 then t.take 47 ++ codesOfString "..." else t) ≠ [] := by
  unfold generateTitleFromMessage
  by_cases h :
      capitalizeJs (if (jsTrim (stripLeadingFiller (jsTrim s))).length > 50 then
          (jsTrim (stripLeadingFiller (jsTrim s))).take 47 ++ codesOfString "..."
        else jsTrim (stripLeadingFiller (jsTrim s))) = []
  · left; simp [h]
  · right
    exact ⟨jsTrim (stripLeadingFiller (jsTrim s)), jsTrimmed_jsTrim _, by simp only [if_neg h], h⟩

theorem jsTrimmed_take_dots (t : List Nat) (ht : JsTrimmed t) (h50 : t.length > 50) :
    JsTrimmed (capitalizeJs (t.take 47 ++ codesOfString "...")) := by
  cases t with
  | nil => simp at h50
  | cons c cs =>
    have hc : isJsSpace c = false := head_not_space_of_dropWhile_eq c cs ht.1
    have hcu : isJsSpace (toUpperCode c) = false := by rw [isJsSpace_toUpperCode]; exact hc
    have hcons : capitalizeJs ((c :: cs).take 47 ++ codesOfString "...")
        = toUpperCode c :: (cs.take 46 ++ [46, 46, 46]) := by
      simp [capitalizeJs, codesOfString]
    constructor
    · rw [hcons, List.dropWhile_cons, if_neg (by simp [hcu])]
    · have hconc : capitalizeJs ((c :: cs).take 47 ++ codesOfString "...")
          = (toUpperCode c :: (cs.take 46 ++ [46, 46])) ++ [46] := by
        rw [hcons]; simp
      rw [hconc, List.rdropWhile_concat_neg _ _ _ (by decide)]

theorem generateTitle_trimmed (s : List Nat) : JsTrimmed (generateTitleFromMessage s) := by
  rcases generateTitle_cases s with h | ⟨t, ht, heq, -⟩
  · rw [h]; constructor <;> decide
  · rw [heq]
    by_cases h50 : t.length > 50
    · rw [if_pos h50]; exact jsTrimmed_take_dots t ht h50
    · rw [if_neg h50]; exact jsTrimmed_capitalizeJs t ht

theorem generateTitle_length_le (s : List Nat) : (generateTitleFromMessage s).length ≤ 50 := by
  rcases generateTitle_cases s with h | ⟨t, ht, heq, -⟩
  · rw [h]; decide
  · rw [heq, capitalizeJs_length]
    by_cases h50 : t.length > 50
    · rw [if_pos h50]
      rw [List.length_append, List.length_take, Nat.min_eq_left (by omega)]
      decide
    · rw [if_neg h50]
      omega

theorem capitalizeJs_generateTitle (s : List Nat) :
    capitalizeJs (generateTitleFromMessage s) = generateTitleFromMessage s := by
  rcases generateTitle_cases s with h | ⟨t, ht, heq, -⟩
  · rw [h]; decide
  · rw [heq, capitalizeJs_capitalizeJs]

theorem generateTitle_ne_nil (s : List Nat) : generateTitleFromMessage s ≠ [] := by
  rcases generateTitle_cases s with h | ⟨t, ht, heq, hne⟩
  · rw [h]; decide
  · rw [heq]; exact hne

theorem stripLeadingFiller_eq_self (l : List Nat) (h : hasLeadingFiller l = false) :
    stripLeadingFiller l = l := by
  unfold stripLeadingFiller
  have hnone : fillerTokens.find? (fun t => matchesCI t l) = none := by
    rw [List.find?_eq_none]
    intro t htmem
    unfold hasLeadingFiller at h
    rw [List.any_eq_false] at h
    exact fun hp => (h t htmem) hp
  rw [hnone]

end EyeQ

namespace EyeQ

/-! ## `updateCurrentMessages` structure lemmas -/

theorem updateCurrentMessages_conversations (st : ChatState) (ms : List Message)
    (target : Option String) (now : Nat) :
    (updateCurrentMessages st ms target now).conversations
      = match resolveTargetId st target with
        | none => st.conversations
        | some t => st.conversations.map (fun c =>
            if c.id = t then { c with messages := ms, updatedAt := now } else c) := by
  unfold updateCurrentMessages
  cases resolveTargetId st target <;> rfl

theorem updateCurrentMessages_currentId (st : ChatState) (ms : List Message)
    (target : Option String) (now : Nat) :
    (updateCurrentMessages st ms target now).currentConversationId
      = st.currentConversationId := by
  unfold updateCurrentMessages
  cases resolveTargetId st target <;> rfl

theorem resolveTargetId_updateCurrentMessages (st : ChatState) (ms : List Message)
    (target x : Option String) (now : Nat) :
    resolveTargetId (updateCurrentMessages st ms target now) x = resolveTargetId st x := by
  unfold resolveTargetId
  cases x with
  | none => exact updateCurrentMessages_currentId st ms target now
  | some s =>
    by_cases hs : s = "" <;> simp [hs, updateCurrentMessages_currentId]

/-- Pointwise preservation of a message-list predicate through a commit. -/
theorem updateCurrentMessages_all (qm : List Message → Bool) (st : ChatState)
    (ms : List Message) (target : Option String) (now : Nat)
    (hst : st.conversations.all (fun c => qm c.messages) = true)
    (hms : qm ms = true) :
    (updateCurrentMessages st ms target now).conversations.all
      (fun c => qm c.messages) = true := by
  rw [updateCurrentMessages_conversations]
  cases hres : resolveTargetId st target with
  | none => exact hst
  | some t =>
    rw [List.all_eq_true] at hst ⊢
    intro c hc
    rw [List.mem_map] at hc
    obtain ⟨c0, hc0, rfl⟩ := hc
    by_cases hid : c0.id = t
    · simp [hid, hms]
    · simp [hid, hst c0 hc0]

/-- A commit never un-cleans a conversation other than the resolved target. -/
theorem updateCurrentMessages_almostClean (st : ChatState) (ms : List Message)
    (target : Option String) (now : Nat) (t : String)
    (hres : resolveTargetId st target = some t)
    (h : almostCleanB st t = true) :
    almostCleanB (updateCurrentMessages st ms target now) t = true := by
  unfold almostCleanB at h ⊢
  rw [updateCurrentMessages_conversations, hres]
  rw [List.all_eq_true] at h ⊢
  intro c hc
  rw [List.mem_map] at hc
  obtain ⟨c0, hc0, rfl⟩ := hc
  by_cases hid : c0.id = t
  · simp [hid]
  · simpa [hid] using h c0 hc0

/-- Committing a streaming-free message list into the target of an
almost-clean state yields a fully clean state. -/
theorem updateCurrentMessages_clean_final (st : ChatState) (ms : List Message)
    (target : Option String) (now : Nat) (t : String)
    (hres : resolveTargetId st target = some t)
    (halmost : almostCleanB st t = true)
    (hms : noStreamingB ms = true) :
    cleanChatB (updateCurrentMessages st ms target now) = true := by
  unfold cleanChatB
  unfold almostCleanB at halmost
  rw [updateCurrentMessages_conversations, hres]
  rw [List.all_eq_true] at halmost ⊢
  intro c hc
  rw [List.mem_map] at hc
  obtain ⟨c0, hc0, rfl⟩ := hc
  by_cases hid : c0.id = t
  · simp [hid, hms]
  · have := halmost c0 hc0
    simp [hid] at this ⊢
    exact this

/-- After a commit, every conversation with the target id holds exactly the
committed list. -/
theorem updateCurrentMessages_targetBaseClean (st : ChatState) (base : List Message)
    (m : Message) (target : Option String) (now : Nat) (t : String)
    (hres : resolveTargetId st target = some t)
    (hm : isStreamingMsg m = false) :
    targetBaseClean (updateCurrentMessages st (base ++ [m]) target now) t base := by
  unfold targetBaseClean
  intro c hc hid
  rw [updateCurrentMessages_conversations, hres] at hc
  rw [List.mem_map] at hc
  obtain ⟨c0, hc0, rfl⟩ := hc
  by_cases h0 : c0.id = t
  · exact ⟨m, by simp [h0], hm⟩
  · rw [if_neg h0] at hid
    exact absurd hid h0

/-- An almost-clean state whose target conversations all end in a
non-streaming tail message over a clean base is clean. -/
theorem cleanChat_of_almost_targetBaseClean (st : ChatState) (t : String)
    (base : List Message)
    (halmost : almostCleanB st t = true)
    (hbase : noStreamingB base = true)
    (hshape : targetBaseClean st t base) :
    cleanChatB st = true := by
  unfold cleanChatB
  unfold almostCleanB at halmost
  rw [List.all_eq_true] at halmost ⊢
  intro c hc
  by_cases hid : c.id = t
  · obtain ⟨m, hm, hms⟩ := hshape c hc hid
    rw [hm]
    unfold noStreamingB at hbase ⊢
    rw [List.all_eq_true] at hbase ⊢
    intro x hx
    rw [List.mem_append] at hx
    rcases hx with hx | hx
    · exact hbase x hx
    · rw [List.mem_singleton] at hx
      subst hx
      simp [hms]
  · have := halmost c hc
    simpa [hid] using this

end EyeQ

namespace EyeQ

/-! ## Counting and id-bound lemmas -/

theorem streamingCount_base_single (base : List Message) (m : Message)
    (h : noStreamingB base = true) : streamingCount (base ++ [m]) ≤ 1 := by
  unfold streamingCount
  rw [List.filter_append]
  have hb : base.filter isStreamingMsg = [] := by
    rw [List.filter_eq_nil_iff]
    unfold noStreamingB at h
    rw [List.all_eq_true] at h
    intro a ha
    have := h a ha
    simpa using this
  rw [hb, List.nil_append]
  by_cases hm : isStreamingMsg m <;> simp [hm]

theorem noStreaming_append_single (base : List Message) (m : Message)
    (hb : noStreamingB base = true) (hm : isStreamingMsg m = false) :
    noStreamingB (base ++ [m]) = true := by
  unfold noStreamingB at hb ⊢
  rw [List.all_append, hb]
  simp [hm]

theorem msgIdBelow_mono (a b : Nat) (m : Message) (hab : a ≤ b)
    (h : msgIdBelow a m = true) : msgIdBelow b m = true := by
  unfold msgIdBelow at h ⊢
  generalize m.id = i at h ⊢
  cases i with
  | num n => simp only [decide_eq_true_eq] at h ⊢; omega
  | str s => rfl

theorem all_msgIdBelow_mono (a b : Nat) (ms : List Message) (hab : a ≤ b)
    (h : ms.all (msgIdBelow a) = true) : ms.all (msgIdBelow b) = true := by
  rw [List.all_eq_true] at h ⊢
  exact fun m hm => msgIdBelow_mono a b m hab (h m hm)

theorem idsBelowB_mono (st : ChatState) (a b : Nat) (hab : a ≤ b)
    (h : idsBelowB st a = true) : idsBelowB st b = true := by
  unfold idsBelowB at h ⊢
  rw [List.all_eq_true] at h ⊢
  exact fun c hc => all_msgIdBelow_mono a b c.messages hab (h c hc)

theorem base_single_ids (base : List Message) (m : Message) (now0 : Nat)
    (hb : base.all (msgIdBelow (now0 + 1)) = true)
    (hm : msgIdBelow (now0 + 2) m = true) :
    (base ++ [m]).all (msgIdBelow (now0 + 2)) = true := by
  rw [List.all_append]
  rw [all_msgIdBelow_mono (now0 + 1) (now0 + 2) base (by omega) hb]
  simp [hm]

/-! ## `RunInv` preservation -/

theorem RunInv_congr (cid0 : Option String) (t : String) (now0 : Nat) (r r' : RunResult)
    (h : RunInv cid0 t now0 r)
    (hchat : r'.ui.chat = r.ui.chat) (hcomm : r'.commits = r.commits) :
    RunInv cid0 t now0 r' := by
  unfold RunInv at h ⊢
  rw [hchat, hcomm]
  exact h

theorem pushCommit_runInv (cid0 : Option String) (t : String) (now0 : Nat) (r : RunResult)
    (ms : List Message) (now' : Nat)
    (h : RunInv cid0 t now0 r)
    (hcount : streamingCount ms ≤ 1)
    (hids : ms.all (msgIdBelow (now0 + 2)) = true) :
    RunInv cid0 t now0 (pushCommit r ms cid0 now') := by
  obtain ⟨h1, h2, h3, h4, h5⟩ := h
  have hatm : atMostOneStreamingB (updateCurrentMessages r.ui.chat ms cid0 now') = true := by
    unfold atMostOneStreamingB at h3 ⊢
    exact updateCurrentMessages_all (fun l => decide (streamingCount l ≤ 1)) _ _ _ _ h3
      (by simpa using hcount)
  refine ⟨?_, ?_, ?_, ?_, ?_⟩
  · show resolveTargetId (updateCurrentMessages r.ui.chat ms cid0 now') cid0 = some t
    rw [resolveTargetId_updateCurrentMessages]
    exact h1
  · exact updateCurrentMessages_almostClean _ _ _ _ _ h1 h2
  · exact hatm
  · show (r.commits ++ [updateCurrentMessages r.ui.chat ms cid0 now']).all _ = true
    rw [List.all_append, h4]
    simpa using hatm
  · show idsBelowB (updateCurrentMessages r.ui.chat ms cid0 now') (now0 + 2) = true
    unfold idsBelowB at h5 ⊢
    exact updateCurrentMessages_all (fun l => l.all (msgIdBelow (now0 + 2))) _ _ _ _ h5 hids

end EyeQ

namespace EyeQ

/-! ## Read-loop step lemmas -/

theorem processStreamLine_fields (fs : StreamFold) (l : StreamLine) :
    (processStreamLine fs l).base = fs.base ∧
    (processStreamLine fs l).cid = fs.cid ∧
    (processStreamLine fs l).aid = fs.aid ∧
    (processStreamLine fs l).now = fs.now ∧
    (processStreamLine fs l).messagesWithStreaming = fs.messagesWithStreaming ∧
    (processStreamLine fs l).run.ui.chat.currentConversationId
      = fs.run.ui.chat.currentConversationId := by
  cases l with
  | skip => exact ⟨rfl, rfl, rfl, rfl, rfl, rfl⟩
  | parsed data =>
    by_cases h1 : truthyStr data.chunk <;> by_cases h2 : truthy data.done <;>
      simp [processStreamLine, h1, h2, pushCommit, bumpForceRender, setLoading,
        setStreamingRef, updateCurrentMessages_currentId]

theorem runInv_commit_single (cid0 : Option String) (t : String) (now0 : Nat) (r : RunResult)
    (base : List Message) (m : Message) (now' : Nat)
    (h : RunInv cid0 t now0 r)
    (hbase : noStreamingB base = true)
    (hbids : base.all (msgIdBelow (now0 + 1)) = true)
    (hmid : msgIdBelow (now0 + 2) m = true) :
    RunInv cid0 t now0 (pushCommit r (base ++ [m]) cid0 now') :=
  pushCommit_runInv cid0 t now0 r (base ++ [m]) now' h
    (streamingCount_base_single base m hbase)
    (base_single_ids base m now0 hbids hmid)

theorem msgIdBelow_assistant (now0 : Nat) (content : String) (now' : Nat) :
    msgIdBelow (now0 + 2) (streamingAssistantMessage (MsgId.num (now0 + 1)) content now') = true := by
  simp [msgIdBelow, streamingAssistantMessage]

theorem msgIdBelow_done (now0 : Nat) (content : String) (analysis : Option Analysis)
    (now' : Nat) :
    msgIdBelow (now0 + 2) (doneAssistantMessage (MsgId.num (now0 + 1)) content analysis now') = true := by
  simp [msgIdBelow, doneAssistantMessage]

theorem processStreamLine_foldInv (cid0 : Option String) (t : String) (base : List Message)
    (now0 : Nat) (fs : StreamFold) (l : StreamLine)
    (h : FoldInv cid0 t base now0 fs) :
    FoldInv cid0 t base now0 (processStreamLine fs l) := by
  obtain ⟨hb, hc, ha, hn, hm, hbc, hbi, hri⟩ := h
  cases l with
  | skip => exact ⟨hb, hc, ha, hn, hm, hbc, hbi, hri⟩
  | parsed data =>
    by_cases h1 : truthyStr data.chunk <;> by_cases h2 : truthy data.done <;>
      simp only [processStreamLine, h1, h2, if_true, if_false, Bool.false_eq_true,
        reduceIte] <;>
      refine ⟨hb, hc, ha, hn, hm, hbc, hbi, ?_⟩
    · -- chunk commit then done commit
      subst hb hc
      rw [ha]
      refine runInv_commit_single _ _ _ _ _ _ _ ?_ hbc hbi (msgIdBelow_done _ _ _ _)
      refine RunInv_congr _ _ _ _ _ ?_ rfl rfl
      exact runInv_commit_single _ _ _ _ _ _ _ hri hbc hbi (msgIdBelow_assistant _ _ _)
    · -- chunk commit only
      subst hb hc
      rw [ha]
      refine RunInv_congr _ _ _ _ _ ?_ rfl rfl
      exact runInv_commit_single _ _ _ _ _ _ _ hri hbc hbi (msgIdBelow_assistant _ _ _)
    · -- done commit only
      subst hb hc
      rw [ha]
      refine runInv_commit_single _ _ _ _ _ _ _ ?_ hbc hbi (msgIdBelow_done _ _ _ _)
      exact RunInv_congr _ _ _ _ _ hri rfl rfl
    · exact hri

theorem foldl_foldInv (cid0 : Option String) (t : String) (base : List Message)
    (now0 : Nat) (events : List StreamLine) :
    ∀ fs : StreamFold, FoldInv cid0 t base now0 fs →
      FoldInv cid0 t base now0 (events.foldl processStreamLine fs) := by
  induction events with
  | nil => intro fs h; exact h
  | cons l rest ih =>
    intro fs h
    rw [List.foldl_cons]
    exact ih _ (processStreamLine_foldInv cid0 t base now0 fs l h)

end EyeQ

namespace EyeQ

theorem append_ne_empty_of_left (a b : String) (h : a ≠ "") : a ++ b ≠ "" := by
  intro hc
  have hl := congrArg String.length hc
  simp [String.length_append] at hl
  exact h (length_zero_eq_empty a hl.1)

theorem processStreamLine_sc (fs : StreamFold) (l : StreamLine) :
    (processStreamLine fs l).streamingContent = fs.streamingContent ++ lineChunk l := by
  cases l with
  | skip => exact (String.append_empty _).symm
  | parsed data =>
    by_cases h1 : truthyStr data.chunk
    · by_cases h2 : truthy data.done <;> simp [processStreamLine, h1, h2, lineChunk]
    · have hfalse : truthyStr data.chunk = false := Bool.eq_false_iff.mpr h1
      have he : data.chunk.getD "" = "" := by simpa [truthyStr] using hfalse
      by_cases h2 : truthy data.done <;>
        simp [processStreamLine, h1, h2, lineChunk, he, String.append_empty]

theorem fold_sc_suffix (events : List StreamLine) :
    ∀ fs : StreamFold, ∃ x : String,
      (events.foldl processStreamLine fs).streamingContent = fs.streamingContent ++ x ∧
      (events.any (fun l => !(lineChunk l == "")) = true → x ≠ "") := by
  induction events with
  | nil => intro fs; exact ⟨"", (String.append_empty _).symm, by simp⟩
  | cons l rest ih =>
    intro fs
    rw [List.foldl_cons]
    obtain ⟨x, hx, hne⟩ := ih (processStreamLine fs l)
    refine ⟨lineChunk l ++ x, ?_, ?_⟩
    · rw [hx, processStreamLine_sc, String.append_assoc]
    · intro hany
      rw [List.any_cons] at hany
      rcases (Bool.or_eq_true _ _).mp hany with hl | hrest
      · have hlc : lineChunk l ≠ "" := by simpa using hl
        exact append_ne_empty_of_left _ _ hlc
      · exact append_ne_empty_of_right _ _ (hne hrest)

theorem processStreamLine_noop (fs : StreamFold) (l : StreamLine)
    (hch : (lineChunk l == "") = true) (hdn : lineHasDone l = false) :
    processStreamLine fs l = fs := by
  cases l with
  | skip => rfl
  | parsed data =>
    have h1 : truthyStr data.chunk = false := by simpa [truthyStr, lineChunk] using hch
    have h2 : truthy data.done = false := by simpa [lineHasDone] using hdn
    simp [processStreamLine, h1, h2]

theorem processStreamLine_done_chat (fs : StreamFold) (data : StreamEvent)
    (hch : truthyStr data.chunk = false) (hdn : truthy data.done = true) :
    (processStreamLine fs (.parsed data)).run.ui.chat
      = updateCurrentMessages fs.run.ui.chat
          (fs.base ++ [doneAssistantMessage fs.aid
            (jsOrString (data.full_response.getD "") fs.streamingContent) data.analysis fs.now])
          fs.cid fs.now := by
  simp [processStreamLine, hch, hdn, pushCommit, setLoading, setStreamingRef]

/-- `targetBaseClean` survives a no-chunk fold. -/
theorem fold_no_chunk_tbc (events : List StreamLine) :
    ∀ (cid0 : Option String) (t : String) (base : List Message) (now0 : Nat) (fs : StreamFold),
      events.all (fun l => lineChunk l == "") = true →
      FoldInv cid0 t base now0 fs →
      targetBaseClean fs.run.ui.chat t base →
      targetBaseClean (events.foldl processStreamLine fs).run.ui.chat t base := by
  induction events with
  | nil => intro _ _ _ _ fs _ _ h; exact h
  | cons l rest ih =>
    intro cid0 t base now0 fs hnc hinv htbc
    rw [List.all_cons] at hnc
    obtain ⟨hl, hrest⟩ := (Bool.and_eq_true _ _).mp hnc
    rw [List.foldl_cons]
    by_cases hd : lineHasDone l
    · cases l with
      | skip => simp [lineHasDone] at hd
      | parsed data =>
        have h1 : truthyStr data.chunk = false := by simpa [truthyStr, lineChunk] using hl
        refine ih cid0 t base now0 _ hrest
          (processStreamLine_foldInv cid0 t base now0 fs _ hinv) ?_
        rw [processStreamLine_done_chat fs data h1 hd, hinv.base_eq, hinv.cid_eq]
        exact updateCurrentMessages_targetBaseClean _ base _ _ _ t hinv.run_inv.1
          (by simp [isStreamingMsg, truthy, doneAssistantMessage])
    · rw [processStreamLine_noop fs l hl (Bool.eq_false_iff.mpr hd)]
      exact ih cid0 t base now0 fs hrest hinv htbc

/-- A no-chunk fold containing a `done` event leaves every target
conversation with a non-streaming tail over `base`. -/
theorem fold_no_chunk_done (events : List StreamLine) :
    ∀ (cid0 : Option String) (t : String) (base : List Message) (now0 : Nat) (fs : StreamFold),
      events.all (fun l => lineChunk l == "") = true →
      events.any lineHasDone = true →
      FoldInv cid0 t base now0 fs →
      targetBaseClean (events.foldl processStreamLine fs).run.ui.chat t base := by
  induction events with
  | nil => intro _ _ _ _ _ _ hany; simp at hany
  | cons l rest ih =>
    intro cid0 t base now0 fs hnc hany hinv
    rw [List.all_cons] at hnc
    obtain ⟨hl, hrest⟩ := (Bool.and_eq_true _ _).mp hnc
    rw [List.foldl_cons]
    by_cases hd : lineHasDone l
    · cases l with
      | skip => simp [lineHasDone] at hd
      | parsed data =>
        have h1 : truthyStr data.chunk = false := by simpa [truthyStr, lineChunk] using hl
        refine fold_no_chunk_tbc rest cid0 t base now0 _ hrest
          (processStreamLine_foldInv cid0 t base now0 fs _ hinv) ?_
        rw [processStreamLine_done_chat fs data h1 hd, hinv.base_eq, hinv.cid_eq]
        exact updateCurrentMessages_targetBaseClean _ base _ _ _ t hinv.run_inv.1
          (by simp [isStreamingMsg, truthy, doneAssistantMessage])
    · rw [processStreamLine_noop fs l hl (Bool.eq_false_iff.mpr hd)]
      refine ih cid0 t base now0 fs hrest ?_ hinv
      rw [List.any_cons] at hany
      rcases (Bool.or_eq_true _ _).mp hany with h | h
      · exact absurd h hd
      · exact h

end EyeQ

namespace EyeQ

theorem guard_any_false (base : List Message) (now0 : Nat)
    (hbids : base.all (msgIdBelow (now0 + 1)) = true) :
    ((base ++ [streamingAssistantMessage (MsgId.num (now0 + 1)) "" now0]).any
      (fun m => m.id == MsgId.num (now0 + 1) && !(truthy m.isStreaming))) = false := by
  rw [List.any_append]
  have h1 : base.any (fun m => m.id == MsgId.num (now0 + 1) && !(truthy m.isStreaming))
      = false := by
    rw [List.any_eq_false]
    intro m hm hcontra
    have hand := (Bool.and_eq_true _ _).mp hcontra
    have heq : m.id = MsgId.num (now0 + 1) := by simpa using hand.1
    have hid : msgIdBelow (now0 + 1) m = true := List.all_eq_true.mp hbids m hm
    unfold msgIdBelow at hid
    rw [heq] at hid
    simp at hid
  have h2 : ([streamingAssistantMessage (MsgId.num (now0 + 1)) "" now0].any
      (fun m => m.id == MsgId.num (now0 + 1) && !(truthy m.isStreaming))) = false := by
    simp [streamingAssistantMessage, truthy]
  rw [h1, h2]
  rfl

theorem isStreamingMsg_apology (idNum : Nat) (text : String) (now' : Nat) :
    isStreamingMsg (apologyAssistantMessage idNum text now') = false := by
  simp [isStreamingMsg, truthy, apologyAssistantMessage]

theorem msgIdBelow_apology (now0 : Nat) (text : String) (now' : Nat) :
    msgIdBelow (now0 + 2) (apologyAssistantMessage (now0 + 1) text now') = true := by
  simp [msgIdBelow, apologyAssistantMessage]

theorem isStreamingMsg_buffer (aid : MsgId) (content : String) (now' : Nat) :
    isStreamingMsg (bufferAssistantMessage aid content now') = false := by
  simp [isStreamingMsg, truthy, bufferAssistantMessage]

theorem msgIdBelow_buffer (now0 : Nat) (content : String) (now' : Nat) :
    msgIdBelow (now0 + 2) (bufferAssistantMessage (MsgId.num (now0 + 1)) content now') = true := by
  simp [msgIdBelow, bufferAssistantMessage]

theorem runExchangeStream_ok
    (r : RunResult) (cid0 : Option String) (base : List Message) (now0 : Nat)
    (apology : String) (outcome : FetchOutcome) (t : String)
    (hres : resolveTargetId r.ui.chat cid0 = some t)
    (hbase : noStreamingB base = true)
    (hbids : base.all (msgIdBelow (now0 + 1)) = true)
    (halmost : almostCleanB r.ui.chat t = true)
    (hatmost : atMostOneStreamingB r.ui.chat = true)
    (hcommits : r.commits.all atMostOneStreamingB = true)
    (hids : idsBelowB r.ui.chat (now0 + 2) = true)
    (hterm : outcomeTerminates outcome = true) :
    (runExchangeStream r cid0 base (now0 + 1) now0 apology outcome).commits.all
      atMostOneStreamingB = true ∧
    cleanChatB (runExchangeStream r cid0 base (now0 + 1) now0 apology outcome).ui.chat = true ∧
    idsBelowB (runExchangeStream r cid0 base (now0 + 1) now0 apology outcome).ui.chat
      (now0 + 2) = true := by
  have hri : RunInv cid0 t now0 r := ⟨hres, halmost, hatmost, hcommits, hids⟩
  cases outcome with
  | httpError =>
    have h2inv : RunInv cid0 t now0
        (pushCommit (setStreamingRef r false)
          (base ++ [apologyAssistantMessage (now0 + 1) apology now0]) cid0 now0) :=
      runInv_commit_single _ _ _ _ _ _ _ (RunInv_congr _ _ _ _ _ hri rfl rfl) hbase hbids
        (msgIdBelow_apology now0 apology now0)
    refine ⟨h2inv.2.2.2.1, ?_, h2inv.2.2.2.2⟩
    exact updateCurrentMessages_clean_final _ _ _ _ t hres halmost
      (noStreaming_append_single base _ hbase (isStreamingMsg_apology _ _ _))
  | stream events aborted =>
    have hinv0 : FoldInv cid0 t base now0
        { run := setStreamingRef
            (pushCommit r (base ++ [streamingAssistantMessage (MsgId.num (now0 + 1)) "" now0])
              cid0 now0) true,
          cid := cid0, base := base, aid := MsgId.num (now0 + 1), now := now0,
          messagesWithStreaming :=
            base ++ [streamingAssistantMessage (MsgId.num (now0 + 1)) "" now0],
          streamingContent := "" } := by
      refine ⟨rfl, rfl, rfl, rfl, rfl, hbase, hbids, ?_⟩
      refine RunInv_congr _ _ _ _ _ ?_ rfl rfl
      exact runInv_commit_single _ _ _ _ _ _ _ hri hbase hbids
        (msgIdBelow_assistant now0 "" now0)
    set fs0 : StreamFold :=
      { run := setStreamingRef
          (pushCommit r (base ++ [streamingAssistantMessage (MsgId.num (now0 + 1)) "" now0])
            cid0 now0) true,
        cid := cid0, base := base, aid := MsgId.num (now0 + 1), now := now0,
        messagesWithStreaming :=
          base ++ [streamingAssistantMessage (MsgId.num (now0 + 1)) "" now0],
        streamingContent := "" } with hfs0
    have hinv1 : FoldInv cid0 t base now0 (events.foldl processStreamLine fs0) :=
      foldl_foldInv cid0 t base now0 events fs0 hinv0
    set fs1 := events.foldl processStreamLine fs0 with hfs1
    cases aborted with
    | true =>
      have h2inv : RunInv cid0 t now0
          (pushCommit (setStreamingRef fs1.run false)
            (base ++ [apologyAssistantMessage (now0 + 1) apology now0]) cid0 now0) :=
        runInv_commit_single _ _ _ _ _ _ _ (RunInv_congr _ _ _ _ _ hinv1.run_inv rfl rfl)
          hbase hbids (msgIdBelow_apology now0 apology now0)
      refine ⟨h2inv.2.2.2.1, ?_, h2inv.2.2.2.2⟩
      exact updateCurrentMessages_clean_final _ _ _ _ t hinv1.run_inv.1 hinv1.run_inv.2.1
        (noStreaming_append_single base _ hbase (isStreamingMsg_apology _ _ _))
    | false =>
      show ((finishStream fs1).run.commits.all atMostOneStreamingB = true) ∧
        cleanChatB (finishStream fs1).run.ui.chat = true ∧
        idsBelowB (finishStream fs1).run.ui.chat (now0 + 2) = true
      by_cases hsc : fs1.streamingContent = ""
      · -- no content accumulated: the defensive commit is skipped
        have hcond : (!(fs1.streamingContent == "") &&
            !(fs1.messagesWithStreaming.any
              (fun m => m.id == fs1.aid && !(truthy m.isStreaming)))) = false := by
          simp [hsc]
        have hfin : finishStream fs1
            = { fs1 with run := setLoading (setStreamingRef fs1.run false) false } := by
          unfold finishStream
          rw [hcond]
          rfl
        rw [hfin]
        have hall : events.all (fun l => lineChunk l == "") = true := by
          rw [List.all_eq_true]
          intro l hm
          by_contra hne
          obtain ⟨x, hx, hxne⟩ := fold_sc_suffix events fs0
          have hanyc : events.any (fun l => !(lineChunk l == "")) = true := by
            rw [List.any_eq_true]
            exact ⟨l, hm, by simpa using hne⟩
          have : fs1.streamingContent = x := by
            rw [← hfs1] at hx
            simpa using hx
          exact (hxne hanyc) (by rw [← this]; exact hsc)
        have hdone : events.any lineHasDone = true := by
          unfold outcomeTerminates at hterm
          rcases (Bool.or_eq_true _ _).mp hterm with h | h
          · rcases (Bool.or_eq_true _ _).mp h with h' | h'
            · simp at h'
            · exact h'
          · exfalso
            obtain ⟨x, hx, hxne⟩ := fold_sc_suffix events fs0
            have : fs1.streamingContent = x := by
              rw [← hfs1] at hx
              simpa using hx
            exact (hxne h) (by rw [← this]; exact hsc)
        have htbc : targetBaseClean fs1.run.ui.chat t base :=
          fold_no_chunk_done events cid0 t base now0 fs0 hall hdone hinv0
        refine ⟨hinv1.run_inv.2.2.2.1, ?_, hinv1.run_inv.2.2.2.2⟩
        exact cleanChat_of_almost_targetBaseClean _ t base hinv1.run_inv.2.1 hbase htbc
      · -- accumulated content: the defensive completion commits a final message
        have hguard : (fs1.messagesWithStreaming.any
            (fun m => m.id == fs1.aid && !(truthy m.isStreaming))) = false := by
          rw [hinv1.mws_eq, hinv1.aid_eq]
          exact guard_any_false base now0 hbids
        have hcond : (!(fs1.streamingContent == "") &&
            !(fs1.messagesWithStreaming.any
              (fun m => m.id == fs1.aid && !(truthy m.isStreaming)))) = true := by
          rw [hguard]
          simp [hsc]
        have hfin : finishStream fs1
            = { fs1 with run := (pushCommit (setLoading (setStreamingRef fs1.run false) false)
                  (fs1.base ++ [bufferAssistantMessage fs1.aid fs1.streamingContent fs1.now])
                  fs1.cid fs1.now) } := by
          unfold finishStream
          rw [hcond]
          rfl
        rw [hfin]
        have h2inv : RunInv cid0 t now0
            (pushCommit (setLoading (setStreamingRef fs1.run false) false)
              (base ++ [bufferAssistantMessage (MsgId.num (now0 + 1)) fs1.streamingContent now0])
              cid0 now0) :=
          runInv_commit_single _ _ _ _ _ _ _ (RunInv_congr _ _ _ _ _ hinv1.run_inv rfl rfl)
            hbase hbids (msgIdBelow_buffer now0 _ now0)
        rw [hinv1.base_eq, hinv1.aid_eq, hinv1.now_eq, hinv1.cid_eq]
        refine ⟨h2inv.2.2.2.1, ?_, h2inv.2.2.2.2⟩
        exact updateCurrentMessages_clean_final _ _ _ _ t hinv1.run_inv.1 hinv1.run_inv.2.1
          (noStreaming_append_single base _ hbase (isStreamingMsg_buffer _ _ _))

end EyeQ

namespace EyeQ

/-! ## Handler pre-phase lemmas -/

theorem cleanChat_almost (st : ChatState) (t : String) (h : cleanChatB st = true) :
    almostCleanB st t = true := by
  unfold cleanChatB at h
  unfold almostCleanB
  rw [List.all_eq_true] at h ⊢
  intro c hc
  simp [h c hc]

theorem cleanChat_atMost (st : ChatState) (h : cleanChatB st = true) :
    atMostOneStreamingB st = true := by
  unfold cleanChatB at h
  unfold atMostOneStreamingB
  rw [List.all_eq_true] at h ⊢
  intro c hc
  have hn := h c hc
  have : streamingCount c.messages = 0 := by
    unfold streamingCount
    rw [List.length_eq_zero, List.filter_eq_nil_iff]
    unfold noStreamingB at hn
    rw [List.all_eq_true] at hn
    intro a ha
    simpa using hn a ha
  simp [this]

theorem resolve_of_pointer (st : ChatState) (c : String)
    (h : st.currentConversationId = some c) : resolveTargetId st (some c) = some c := by
  unfold resolveTargetId
  by_cases hc : c = "" <;> simp [hc, h]

theorem currentMessages_clean (st : ChatState) (h : cleanChatB st = true) :
    noStreamingB (currentMessages st) = true := by
  unfold currentMessages
  cases hcur : st.currentConversationId with
  | none => rfl
  | some cid =>
    show noStreamingB (match st.conversations.find? (fun conv => conv.id = cid) with
      | some conv => conv.messages
      | none => []) = true
    cases hf : st.conversations.find? (fun conv => conv.id = cid) with
    | none => rfl
    | some conv =>
      unfold cleanChatB at h
      rw [List.all_eq_true] at h
      exact h conv (List.mem_of_find?_eq_some hf)

theorem currentMessages_ids (st : ChatState) (b : Nat) (h : idsBelowB st b = true) :
    (currentMessages st).all (msgIdBelow b) = true := by
  unfold currentMessages
  cases hcur : st.currentConversationId with
  | none => rfl
  | some cid =>
    show ((match st.conversations.find? (fun conv => conv.id = cid) with
      | some conv => conv.messages
      | none => []) : List Message).all (msgIdBelow b) = true
    cases hf : st.conversations.find? (fun conv => conv.id = cid) with
    | none => rfl
    | some conv =>
      unfold idsBelowB at h
      rw [List.all_eq_true] at h
      exact h conv (List.mem_of_find?_eq_some hf)

theorem createConversation_clean (st : ChatState) (now : Nat) (h : cleanChatB st = true) :
    cleanChatB (createConversationOnFirstMessage st now).1 = true := by
  unfold cleanChatB at h ⊢
  unfold createConversationOnFirstMessage
  rw [List.all_append, h]
  rfl

theorem createConversation_ids (st : ChatState) (now b : Nat) (h : idsBelowB st b = true) :
    idsBelowB (createConversationOnFirstMessage st now).1 b = true := by
  unfold idsBelowB at h ⊢
  unfold createConversationOnFirstMessage
  rw [List.all_append, h]
  rfl

theorem createConversation_pointer (st : ChatState) (now : Nat) :
    (createConversationOnFirstMessage st now).1.currentConversationId
      = some (createConversationOnFirstMessage st now).2 := rfl

theorem updateConversationTitle_all (qm : List Message → Bool) (st : ChatState)
    (id title : String)
    (h : st.conversations.all (fun c => qm c.messages) = true) :
    (updateConversationTitle st id title).conversations.all (fun c => qm c.messages) = true := by
  unfold updateConversationTitle
  rw [List.all_eq_true] at h ⊢
  intro c hc
  simp only [List.mem_map] at hc
  obtain ⟨c0, hc0, rfl⟩ := hc
  by_cases hid : c0.id = id <;> simp [hid, h c0 hc0]

theorem updateConversationTitle_pointer (st : ChatState) (id title : String) :
    (updateConversationTitle st id title).currentConversationId
      = st.currentConversationId := rfl

theorem updateConversationTitle_clean (st : ChatState) (id title : String)
    (h : cleanChatB st = true) : cleanChatB (updateConversationTitle st id title) = true :=
  updateConversationTitle_all noStreamingB st id title h

theorem updateConversationTitle_ids (st : ChatState) (id title : String) (b : Nat)
    (h : idsBelowB st b = true) : idsBelowB (updateConversationTitle st id title) b = true :=
  updateConversationTitle_all (fun l => l.all (msgIdBelow b)) st id title h

theorem isStreamingMsg_user (mid : MsgId) (content : String)
    (mfile : Option MessageFile) (atts : Option (List Attachment)) (ts : Nat) :
    isStreamingMsg
      { id := mid, type := MsgType.user, content := content, file := mfile,
        attachments := atts, timestamp := ts } = false := rfl

end EyeQ

namespace EyeQ

theorem addFile_conversations (st : ChatState) (n : String) (sz : Nat) (ty : String)
    (now : Nat) : (addFile st n sz ty now).conversations = st.conversations := rfl

theorem addFile_pointer (st : ChatState) (n : String) (sz : Nat) (ty : String)
    (now : Nat) : (addFile st n sz ty now).currentConversationId = st.currentConversationId := rfl

theorem pushRequest_ui (r : RunResult) (q : Request) : (pushRequest r q).ui = r.ui := rfl

theorem pushRequest_commits (r : RunResult) (q : Request) :
    (pushRequest r q).commits = r.commits := rfl

theorem setLoading_ui_chat (r : RunResult) (b : Bool) : (setLoading r b).ui.chat = r.ui.chat := rfl

theorem setLoading_commits (r : RunResult) (b : Bool) : (setLoading r b).commits = r.commits := rfl

theorem bumpForceRender_ui_chat (r : RunResult) : (bumpForceRender r).ui.chat = r.ui.chat := rfl

theorem bumpForceRender_commits (r : RunResult) : (bumpForceRender r).commits = r.commits := rfl

theorem pushCommit_ui_chat (r : RunResult) (ms : List Message) (tg : Option String) (now : Nat) :
    (pushCommit r ms tg now).ui.chat = updateCurrentMessages r.ui.chat ms tg now := rfl

theorem pushCommit_commits (r : RunResult) (ms : List Message) (tg : Option String) (now : Nat) :
    (pushCommit r ms tg now).commits
      = r.commits ++ [updateCurrentMessages r.ui.chat ms tg now] := rfl

theorem cleanChatB_of_conversations_eq (st st' : ChatState)
    (h : st'.conversations = st.conversations) (hc : cleanChatB st = true) :
    cleanChatB st' = true := by
  unfold cleanChatB at hc ⊢
  rw [h]
  exact hc

theorem idsBelowB_of_conversations_eq (st st' : ChatState) (b : Nat)
    (h : st'.conversations = st.conversations) (hc : idsBelowB st b = true) :
    idsBelowB st' b = true := by
  unfold idsBelowB at hc ⊢
  rw [h]
  exact hc

/-- `sendCreatedPair` keeps or creates the current conversation. -/
theorem sendCreatedPair_pointer (ui : UIState) (now : Nat) :
    (sendCreatedPair ui now).1.currentConversationId = some (sendCreatedPair ui now).2 := by
  unfold sendCreatedPair
  cases hcur : ui.chat.currentConversationId with
  | some cid => exact hcur
  | none => exact createConversation_pointer ui.chat now

theorem sendCreatedPair_clean (ui : UIState) (now : Nat) (h : cleanChatB ui.chat = true) :
    cleanChatB (sendCreatedPair ui now).1 = true := by
  unfold sendCreatedPair
  cases hcur : ui.chat.currentConversationId with
  | some cid => exact h
  | none => exact createConversation_clean ui.chat now h

theorem sendCreatedPair_ids (ui : UIState) (now b : Nat) (h : idsBelowB ui.chat b = true) :
    idsBelowB (sendCreatedPair ui now).1 b = true := by
  unfold sendCreatedPair
  cases hcur : ui.chat.currentConversationId with
  | some cid => exact h
  | none => exact createConversation_ids ui.chat now b h

/-- Everything `runExchangeStream_ok` needs about the state
`handleSendMessageBefore` hands over. -/
theorem handleSendMessageBefore_ok (ui : UIState) (message : String) (file : Option FileArg)
    (attachments : Option (List Attachment)) (now : Nat)
    (hclean : cleanChatB ui.chat = true) (hids : idsBelowB ui.chat now = true) :
    (handleSendMessageBefore ui message file attachments now).1.ui.chat.currentConversationId
      = some (handleSendMessageBefore ui message file attachments now).2.1 ∧
    cleanChatB (handleSendMessageBefore ui message file attachments now).1.ui.chat = true ∧
    (handleSendMessageBefore ui message file attachments now).1.commits.all
      atMostOneStreamingB = true ∧
    idsBelowB (handleSendMessageBefore ui message file attachments now).1.ui.chat
      (now + 2) = true ∧
    noStreamingB (handleSendMessageBefore ui message file attachments now).2.2 = true ∧
    (handleSendMessageBefore ui message file attachments now).2.2.all
      (msgIdBelow (now + 1)) = true := by
  have hsnapC := currentMessages_clean ui.chat hclean
  have hsnapI := currentMessages_ids ui.chat now hids
  have hNMc : noStreamingB (currentMessages ui.chat ++
      [({ id := MsgId.num now, type := MsgType.user,
          content := jsOrString message "Please analyze this uploaded file for compliance.",
          file := Option.map (fun f => ({ name := f.name, content := some "" } : MessageFile)) file,
          attachments := attachments, analysis := none, isLoading := none, isError := none,
          isStreaming := none, timestamp := now } : Message)]) = true :=
    noStreaming_append_single _ _ hsnapC rfl
  have hNMi1 : (currentMessages ui.chat ++
      [({ id := MsgId.num now, type := MsgType.user,
          content := jsOrString message "Please analyze this uploaded file for compliance.",
          file := Option.map (fun f => ({ name := f.name, content := some "" } : MessageFile)) file,
          attachments := attachments, analysis := none, isLoading := none, isError := none,
          isStreaming := none, timestamp := now } : Message)]).all (msgIdBelow (now + 1)) = true := by
    rw [List.all_append, all_msgIdBelow_mono now (now + 1) _ (by omega) hsnapI]
    simp [msgIdBelow]
  have hNMi2 := all_msgIdBelow_mono (now + 1) (now + 2) _ (by omega) hNMi1
  have hgen :
      cleanChatB (updateCurrentMessages (sendCreatedPair ui now).1 (currentMessages ui.chat ++
        [({ id := MsgId.num now, type := MsgType.user,
            content := jsOrString message "Please analyze this uploaded file for compliance.",
            file := Option.map (fun f => ({ name := f.name, content := some "" } : MessageFile)) file,
            attachments := attachments, analysis := none, isLoading := none, isError := none,
            isStreaming := none, timestamp := now } : Message)])
        (some (sendCreatedPair ui now).2) now) = true ∧
      idsBelowB (updateCurrentMessages (sendCreatedPair ui now).1 (currentMessages ui.chat ++
        [({ id := MsgId.num now, type := MsgType.user,
            content := jsOrString message "Please analyze this uploaded file for compliance.",
            file := Option.map (fun f => ({ name := f.name, content := some "" } : MessageFile)) file,
            attachments := attachments, analysis := none, isLoading := none, isError := none,
            isStreaming := none, timestamp := now } : Message)])
        (some (sendCreatedPair ui now).2) now) (now + 2) = true ∧
      atMostOneStreamingB (updateCurrentMessages (sendCreatedPair ui now).1
        (currentMessages ui.chat ++
        [({ id := MsgId.num now, type := MsgType.user,
            content := jsOrString message "Please analyze this uploaded file for compliance.",
            file := Option.map (fun f => ({ name := f.name, content := some "" } : MessageFile)) file,
            attachments := attachments, analysis := none, isLoading := none, isError := none,
            isStreaming := none, timestamp := now } : Message)])
        (some (sendCreatedPair ui now).2) now) = true ∧
      (updateCurrentMessages (sendCreatedPair ui now).1 (currentMessages ui.chat ++
        [({ id := MsgId.num now, type := MsgType.user,
            content := jsOrString message "Please analyze this uploaded file for compliance.",
            file := Option.map (fun f => ({ name := f.name, content := some "" } : MessageFile)) file,
            attachments := attachments, analysis := none, isLoading := none, isError := none,
            isStreaming := none, timestamp := now } : Message)])
        (some (sendCreatedPair ui now).2) now).currentConversationId
        = some (sendCreatedPair ui now).2 := by
    have h1 : cleanChatB (updateCurrentMessages (sendCreatedPair ui now).1 _
        (some (sendCreatedPair ui now).2) now) = true :=
      updateCurrentMessages_all noStreamingB _ _ _ _ (sendCreatedPair_clean ui now hclean) hNMc
    refine ⟨h1, ?_, cleanChat_atMost _ h1,
      (updateCurrentMessages_currentId _ _ _ _).trans (sendCreatedPair_pointer ui now)⟩
    exact updateCurrentMessages_all (fun l => l.all (msgIdBelow (now + 2))) _ _ _ _
      (sendCreatedPair_ids ui now (now + 2) (idsBelowB_mono _ _ _ (by omega) hids)) hNMi2
  obtain ⟨hupC, hupI, hupAM, hupCur⟩ := hgen
  simp only [handleSendMessageBefore]
  cases file with
  | none =>
    by_cases hauto : sendAutoNameCond ui.chat.conversations (currentMessages ui.chat)
        (sendCreatedPair ui now).2 = true
    · simp only [hauto, eq_self_iff_true, if_true]
      refine ⟨?_, ?_, ?_, ?_, hNMc, hNMi1⟩
      · simp only [pushRequest_ui, pushRequest_commits, bumpForceRender_ui_chat, bumpForceRender_commits, setLoading_ui_chat, setLoading_commits, pushCommit_ui_chat, pushCommit_commits, List.nil_append, updateConversationTitle_pointer,
          updateCurrentMessages_currentId, sendCreatedPair_pointer]
      · simp only [pushRequest_ui, pushRequest_commits, bumpForceRender_ui_chat, bumpForceRender_commits, setLoading_ui_chat, setLoading_commits, pushCommit_ui_chat, pushCommit_commits, List.nil_append]
        exact updateConversationTitle_clean _ _ _ hupC
      · simp only [pushRequest_ui, pushRequest_commits, bumpForceRender_ui_chat, bumpForceRender_commits, setLoading_ui_chat, setLoading_commits, pushCommit_ui_chat, pushCommit_commits, List.nil_append, List.all_cons, List.all_nil, Bool.and_true]
        exact hupAM
      · simp only [pushRequest_ui, pushRequest_commits, bumpForceRender_ui_chat, bumpForceRender_commits, setLoading_ui_chat, setLoading_commits, pushCommit_ui_chat, pushCommit_commits, List.nil_append]
        exact updateConversationTitle_ids _ _ _ _ hupI
    · have hauto2 : sendAutoNameCond ui.chat.conversations (currentMessages ui.chat)
          (sendCreatedPair ui now).2 = false := Bool.eq_false_iff.mpr hauto
      simp only [hauto2, Bool.false_eq_true, if_false]
      refine ⟨?_, ?_, ?_, ?_, hNMc, hNMi1⟩
      · simp only [pushRequest_ui, pushRequest_commits, bumpForceRender_ui_chat, bumpForceRender_commits, setLoading_ui_chat, setLoading_commits, pushCommit_ui_chat, pushCommit_commits, List.nil_append, updateCurrentMessages_currentId, sendCreatedPair_pointer]
      · simp only [pushRequest_ui, pushRequest_commits, bumpForceRender_ui_chat, bumpForceRender_commits, setLoading_ui_chat, setLoading_commits, pushCommit_ui_chat, pushCommit_commits, List.nil_append]
        exact hupC
      · simp only [pushRequest_ui, pushRequest_commits, bumpForceRender_ui_chat, bumpForceRender_commits, setLoading_ui_chat, setLoading_commits, pushCommit_ui_chat, pushCommit_commits, List.nil_append, List.all_cons, List.all_nil, Bool.and_true]
        exact hupAM
      · simp only [pushRequest_ui, pushRequest_commits, bumpForceRender_ui_chat, bumpForceRender_commits, setLoading_ui_chat, setLoading_commits, pushCommit_ui_chat, pushCommit_commits, List.nil_append]
        exact hupI
  | some f =>
    have hmatch : ∀ (R : RunResult),
        (match f.extracted with
          | some c => (R, c)
          | none => (R, "[File: " ++ f.name ++ " - Content extraction failed]")).1 = R := by
      intro R
      cases f.extracted <;> rfl
    by_cases hauto : sendAutoNameCond ui.chat.conversations (currentMessages ui.chat)
        (sendCreatedPair ui now).2 = true
    · simp only [hauto, eq_self_iff_true, if_true, hmatch]
      refine ⟨?_, ?_, ?_, ?_, hNMc, hNMi1⟩
      · simp only [pushRequest_ui, pushRequest_commits, bumpForceRender_ui_chat, bumpForceRender_commits, setLoading_ui_chat, setLoading_commits, pushCommit_ui_chat, pushCommit_commits, List.nil_append, addFile_pointer, updateConversationTitle_pointer,
          updateCurrentMessages_currentId, sendCreatedPair_pointer]
      · simp only [pushRequest_ui, pushRequest_commits, bumpForceRender_ui_chat, bumpForceRender_commits, setLoading_ui_chat, setLoading_commits, pushCommit_ui_chat, pushCommit_commits, List.nil_append]
        refine cleanChatB_of_conversations_eq _ _ (addFile_conversations _ _ _ _ _) ?_
        exact updateConversationTitle_clean _ _ _ hupC
      · simp only [pushRequest_ui, pushRequest_commits, bumpForceRender_ui_chat, bumpForceRender_commits, setLoading_ui_chat, setLoading_commits, pushCommit_ui_chat, pushCommit_commits, List.nil_append, List.all_cons, List.all_nil, Bool.and_true]
        exact hupAM
      · simp only [pushRequest_ui, pushRequest_commits, bumpForceRender_ui_chat, bumpForceRender_commits, setLoading_ui_chat, setLoading_commits, pushCommit_ui_chat, pushCommit_commits, List.nil_append]
        refine idsBelowB_of_conversations_eq _ _ _ (addFile_conversations _ _ _ _ _) ?_
        exact updateConversationTitle_ids _ _ _ _ hupI
    · have hauto2 : sendAutoNameCond ui.chat.conversations (currentMessages ui.chat)
          (sendCreatedPair ui now).2 = false := Bool.eq_false_iff.mpr hauto
      simp only [hauto2, Bool.false_eq_true, if_false, hmatch]
      refine ⟨?_, ?_, ?_, ?_, hNMc, hNMi1⟩
      · simp only [pushRequest_ui, pushRequest_commits, bumpForceRender_ui_chat, bumpForceRender_commits, setLoading_ui_chat, setLoading_commits, pushCommit_ui_chat, pushCommit_commits, List.nil_append, addFile_pointer, updateCurrentMessages_currentId,
          sendCreatedPair_pointer]
      · simp only [pushRequest_ui, pushRequest_commits, bumpForceRender_ui_chat, bumpForceRender_commits, setLoading_ui_chat, setLoading_commits, pushCommit_ui_chat, pushCommit_commits, List.nil_append]
        exact cleanChatB_of_conversations_eq _ _ (addFile_conversations _ _ _ _ _) hupC
      · simp only [pushRequest_ui, pushRequest_commits, bumpForceRender_ui_chat, bumpForceRender_commits, setLoading_ui_chat, setLoading_commits, pushCommit_ui_chat, pushCommit_commits, List.nil_append, List.all_cons, List.all_nil, Bool.and_true]
        exact hupAM
      · simp only [pushRequest_ui, pushRequest_commits, bumpForceRender_ui_chat, bumpForceRender_commits, setLoading_ui_chat, setLoading_commits, pushCommit_ui_chat, pushCommit_commits, List.nil_append]
        exact idsBelowB_of_conversations_eq _ _ _ (addFile_conversations _ _ _ _ _) hupI

end EyeQ

namespace EyeQ

theorem all_take {α : Type} (p : α → Bool) (l : List α) (n : Nat) (h : l.all p = true) :
    (l.take n).all p = true := by
  rw [List.all_eq_true] at h ⊢
  intro a ha
  exact h a (List.take_subset n l ha)

theorem currentMessages_pointer_none (st : ChatState) (h : st.currentConversationId = none) :
    currentMessages st = [] := by
  unfold currentMessages
  rw [h]

/-- `handleSendMessage` keeps every commit at no more than one streaming
message and ends with a clean state, provided the exchange terminates. -/
theorem handleSendMessage_ok (ui : UIState) (message : String) (file : Option FileArg)
    (attachments : Option (List Attachment)) (now : Nat) (outcome : FetchOutcome)
    (hclean : cleanChatB ui.chat = true) (hids : idsBelowB ui.chat now = true)
    (hterm : outcomeTerminates outcome = true) :
    (handleSendMessage ui message file attachments now outcome).commits.all
      atMostOneStreamingB = true ∧
    cleanChatB (handleSendMessage ui message file attachments now outcome).ui.chat = true ∧
    idsBelowB (handleSendMessage ui message file attachments now outcome).ui.chat
      (now + 2) = true := by
  unfold handleSendMessage
  by_cases hempty : message = "" ∧ file = none
  · rw [if_pos hempty]
    exact ⟨rfl, hclean, idsBelowB_mono _ _ _ (by omega) hids⟩
  · rw [if_neg hempty]
    obtain ⟨hP, hC, hAM, hI, hNMc, hNMi⟩ :=
      handleSendMessageBefore_ok ui message file attachments now hclean hids
    exact runExchangeStream_ok _ _ _ now sendApology outcome _
      (resolve_of_pointer _ _ hP) hNMc hNMi (cleanChat_almost _ _ hC) (cleanChat_atMost _ hC)
      hAM hI hterm

/-- Everything `runExchangeStream_ok` needs about the state
`handleRegenerateBefore` hands over when it does not early-return. -/
theorem handleRegenerateBefore_ok (ui : UIState) (target : MsgId) (now : Nat)
    (pre : RunResult × List Message)
    (hclean : cleanChatB ui.chat = true) (hids : idsBelowB ui.chat now = true)
    (hpre : handleRegenerateBefore ui target now = some pre) :
    ∃ cid, ui.chat.currentConversationId = some cid ∧
      resolveTargetId pre.1.ui.chat (some cid) = some cid ∧
      cleanChatB pre.1.ui.chat = true ∧
      pre.1.commits.all atMostOneStreamingB = true ∧
      idsBelowB pre.1.ui.chat (now + 2) = true ∧
      noStreamingB pre.2 = true ∧
      pre.2.all (msgIdBelow (now + 1)) = true := by
  simp only [handleRegenerateBefore] at hpre
  split at hpre
  · exact Option.noConfusion hpre
  rename_i idx hfi
  split at hpre
  · exact Option.noConfusion hpre
  rename_i hidx
  split at hpre
  · exact Option.noConfusion hpre
  rename_i userMessage hget
  split at hpre
  · exact Option.noConfusion hpre
  rename_i htype
  obtain rfl := Option.some.inj hpre
  cases hptr : ui.chat.currentConversationId with
  | none =>
    rw [currentMessages_pointer_none ui.chat hptr] at hget
    simp at hget
  | some cid =>
    have htakeC : noStreamingB ((currentMessages ui.chat).take idx) = true :=
      all_take _ _ _ (currentMessages_clean ui.chat hclean)
    have htakeI1 : ((currentMessages ui.chat).take idx).all (msgIdBelow (now + 1)) = true :=
      all_msgIdBelow_mono now (now + 1) _ (by omega)
        (all_take _ _ _ (currentMessages_ids ui.chat now hids))
    have htakeI2 : ((currentMessages ui.chat).take idx).all (msgIdBelow (now + 2)) = true :=
      all_msgIdBelow_mono (now + 1) (now + 2) _ (by omega) htakeI1
    have hupC : cleanChatB (updateCurrentMessages ui.chat ((currentMessages ui.chat).take idx)
        (some cid) now) = true :=
      updateCurrentMessages_all noStreamingB _ _ _ _ hclean htakeC
    have hupI : idsBelowB (updateCurrentMessages ui.chat ((currentMessages ui.chat).take idx)
        (some cid) now) (now + 2) = true :=
      updateCurrentMessages_all (fun l => l.all (msgIdBelow (now + 2))) _ _ _ _
        (idsBelowB_mono _ _ _ (by omega) hids) htakeI2
    refine ⟨cid, rfl, ?_, ?_, ?_, ?_, htakeC, htakeI1⟩
    · refine resolve_of_pointer _ _ ?_
      simp only [pushRequest_ui, bumpForceRender_ui_chat, setLoading_ui_chat, pushCommit_ui_chat,
        updateCurrentMessages_currentId]
      exact hptr
    · simp only [pushRequest_ui, bumpForceRender_ui_chat, setLoading_ui_chat, pushCommit_ui_chat]
      exact hupC
    · simp only [pushRequest_commits, bumpForceRender_commits, setLoading_commits,
        pushCommit_commits, List.nil_append, List.all_cons, List.all_nil, Bool.and_true]
      exact cleanChat_atMost _ hupC
    · simp only [pushRequest_ui, bumpForceRender_ui_chat, setLoading_ui_chat, pushCommit_ui_chat]
      exact hupI

/-- `handleRegenerateResponse` keeps every commit at no more than one
streaming message and ends with a clean state, provided the exchange
terminates. -/
theorem handleRegenerateResponse_ok (ui : UIState) (target : MsgId) (now : Nat)
    (outcome : FetchOutcome)
    (hclean : cleanChatB ui.chat = true) (hids : idsBelowB ui.chat now = true)
    (hterm : outcomeTerminates outcome = true) :
    (handleRegenerateResponse ui target now outcome).commits.all atMostOneStreamingB = true ∧
    cleanChatB (handleRegenerateResponse ui target now outcome).ui.chat = true ∧
    idsBelowB (handleRegenerateResponse ui target now outcome).ui.chat (now + 2) = true := by
  unfold handleRegenerateResponse
  cases hpre : handleRegenerateBefore ui target now with
  | none => exact ⟨rfl, hclean, idsBelowB_mono _ _ _ (by omega) hids⟩
  | some pre =>
    obtain ⟨cid, hptr, hres, hC, hAM, hI, hNMc, hNMi⟩ :=
      handleRegenerateBefore_ok ui target now pre hclean hids hpre
    rw [hptr]
    exact runExchangeStream_ok pre.1 (some cid) pre.2 now regenerateApology outcome cid
      hres hNMc hNMi (cleanChat_almost _ _ hC) (cleanChat_atMost _ hC) hAM hI hterm

/-- Everything `runExchangeStream_ok` needs about the state
`handleEditBefore` hands over when it does not early-return. -/
theorem handleEditBefore_ok (ui : UIState) (newText : String) (now : Nat)
    (pre : RunResult × List Message)
    (hclean : cleanChatB ui.chat = true) (hids : idsBelowB ui.chat now = true)
    (hpre : handleEditBefore ui newText now = some pre) :
    ∃ cid, ui.chat.currentConversationId = some cid ∧
      resolveTargetId pre.1.ui.chat (some cid) = some cid ∧
      cleanChatB pre.1.ui.chat = true ∧
      pre.1.commits.all atMostOneStreamingB = true ∧
      idsBelowB pre.1.ui.chat (now + 2) = true ∧
      noStreamingB pre.2 = true ∧
      pre.2.all (msgIdBelow (now + 1)) = true := by
  simp only [handleEditBefore] at hpre
  split at hpre
  · exact Option.noConfusion hpre
  rename_i idx hli
  split at hpre
  · exact Option.noConfusion hpre
  rename_i lastUser hget
  obtain rfl := Option.some.inj hpre
  cases hptr : ui.chat.currentConversationId with
  | none =>
    rw [currentMessages_pointer_none ui.chat hptr] at hget
    simp at hget
  | some cid =>
    have hmem : lastUser ∈ currentMessages ui.chat := by
      have := List.getElem?_eq_some.mp hget
      obtain ⟨hlt, hv⟩ := this
      exact hv ▸ List.getElem_mem hlt
    have hLUc : isStreamingMsg lastUser = false := by
      have h1 := currentMessages_clean ui.chat hclean
      unfold noStreamingB at h1
      rw [List.all_eq_true] at h1
      simpa using h1 lastUser hmem
    have hLUi : msgIdBelow now lastUser = true := by
      have h1 := currentMessages_ids ui.chat now hids
      rw [List.all_eq_true] at h1
      exact h1 lastUser hmem
    have hupdC : noStreamingB ((currentMessages ui.chat).take idx
        ++ [{ lastUser with content := newText }]) = true :=
      noStreaming_append_single _ _ (all_take _ _ _ (currentMessages_clean ui.chat hclean)) hLUc
    have hupdI1 : ((currentMessages ui.chat).take idx
        ++ [{ lastUser with content := newText }]).all (msgIdBelow (now + 1)) = true := by
      rw [List.all_append]
      have h1 : ((currentMessages ui.chat).take idx).all (msgIdBelow (now + 1)) = true :=
        all_msgIdBelow_mono now (now + 1) _ (by omega)
          (all_take _ _ _ (currentMessages_ids ui.chat now hids))
      have h2 : msgIdBelow (now + 1) ({ lastUser with content := newText }) = true :=
        msgIdBelow_mono now (now + 1) _ (by omega) hLUi
      rw [h1]
      simp [h2]
    have hupdI2 := all_msgIdBelow_mono (now + 1) (now + 2) _ (by omega) hupdI1
    have hupC : cleanChatB (updateCurrentMessages ui.chat ((currentMessages ui.chat).take idx
        ++ [{ lastUser with content := newText }]) (some cid) now) = true :=
      updateCurrentMessages_all noStreamingB _ _ _ _ hclean hupdC
    have hupI : idsBelowB (updateCurrentMessages ui.chat ((currentMessages ui.chat).take idx
        ++ [{ lastUser with content := newText }]) (some cid) now)
        (now + 2) = true :=
      updateCurrentMessages_all (fun l => l.all (msgIdBelow (now + 2))) _ _ _ _
        (idsBelowB_mono _ _ _ (by omega) hids) hupdI2
    refine ⟨cid, rfl, ?_, ?_, ?_, ?_, hupdC, hupdI1⟩
    · refine resolve_of_pointer _ _ ?_
      simp only [pushRequest_ui, bumpForceRender_ui_chat, setLoading_ui_chat, pushCommit_ui_chat,
        updateCurrentMessages_currentId]
      exact hptr
    · simp only [pushRequest_ui, bumpForceRender_ui_chat, setLoading_ui_chat, pushCommit_ui_chat]
      exact hupC
    · simp only [pushRequest_commits, bumpForceRender_commits, setLoading_commits,
        pushCommit_commits, List.nil_append, List.all_cons, List.all_nil, Bool.and_true]
      exact cleanChat_atMost _ hupC
    · simp only [pushRequest_ui, bumpForceRender_ui_chat, setLoading_ui_chat, pushCommit_ui_chat]
      exact hupI

/-- `handleEditLastUserMessage` keeps every commit at no more than one
streaming message and ends with a clean state, provided the exchange
terminates. -/
theorem handleEditLastUserMessage_ok (ui : UIState) (newText : String) (now : Nat)
    (outcome : FetchOutcome)
    (hclean : cleanChatB ui.chat = true) (hids : idsBelowB ui.chat now = true)
    (hterm : outcomeTerminates outcome = true) :
    (handleEditLastUserMessage ui newText now outcome).commits.all atMostOneStreamingB = true ∧
    cleanChatB (handleEditLastUserMessage ui newText now outcome).ui.chat = true ∧
    idsBelowB (handleEditLastUserMessage ui newText now outcome).ui.chat (now + 2) = true := by
  unfold handleEditLastUserMessage
  cases hpre : handleEditBefore ui newText now with
  | none => exact ⟨rfl, hclean, idsBelowB_mono _ _ _ (by omega) hids⟩
  | some pre =>
    obtain ⟨cid, hptr, hres, hC, hAM, hI, hNMc, hNMi⟩ :=
      handleEditBefore_ok ui newText now pre hclean hids hpre
    rw [hptr]
    exact runExchangeStream_ok pre.1 (some cid) pre.2 now editApology outcome cid
      hres hNMc hNMi (cleanChat_almost _ _ hC) (cleanChat_atMost _ hC) hAM hI hterm

/-- One terminating sequential action preserves cleanliness and id bounds and
keeps every commit at no more than one streaming message. -/
theorem runChatOp_ok (ui : UIState) (op : ChatOp)
    (hclean : cleanChatB ui.chat = true) (hids : idsBelowB ui.chat (opNow op) = true)
    (hterm : opTerminates op = true) :
    (runChatOp ui op).commits.all atMostOneStreamingB = true ∧
    cleanChatB (runChatOp ui op).ui.chat = true ∧
    idsBelowB (runChatOp ui op).ui.chat (opNow op + 2) = true := by
  cases op with
  | send m f a now o => exact handleSendMessage_ok ui m f a now o hclean hids hterm
  | regenerate t now o => exact handleRegenerateResponse_ok ui t now o hclean hids hterm
  | editLast s now o => exact handleEditLastUserMessage_ok ui s now o hclean hids hterm

/-- A whole script of terminating sequential actions with a valid clock keeps
every commit at no more than one streaming message and ends clean. -/
theorem runChatOps_ok (ops : List ChatOp) : ∀ (ui : UIState) (t : Nat),
    cleanChatB ui.chat = true → idsBelowB ui.chat t = true →
    timeOKB t ops = true → ops.all opTerminates = true →
    (runChatOps ui ops).2.all atMostOneStreamingB = true ∧
    cleanChatB (runChatOps ui ops).1.chat = true ∧
    idsBelowB (runChatOps ui ops).1.chat (endClock t ops) = true := by
  induction ops with
  | nil =>
    intro ui t hc hi _ _
    exact ⟨rfl, hc, hi⟩
  | cons op ops ih =>
    intro ui t hc hi htime hterm
    simp only [timeOKB] at htime
    obtain ⟨h1, h2⟩ := (Bool.and_eq_true _ _).mp htime
    have hle : t ≤ opNow op := of_decide_eq_true h1
    rw [List.all_cons] at hterm
    obtain ⟨hto, hts⟩ := (Bool.and_eq_true _ _).mp hterm
    obtain ⟨hcm, hcl, hid⟩ := runChatOp_ok ui op hc (idsBelowB_mono _ _ _ hle hi) hto
    obtain ⟨hcm2, hcl2, hid2⟩ := ih (runChatOp ui op).ui (opNow op + 2) hcl hid h2 hts
    refine ⟨?_, hcl2, hid2⟩
    show ((runChatOp ui op).commits ++ (runChatOps (runChatOp ui op).ui ops).2).all
      atMostOneStreamingB = true
    rw [List.all_append, hcm, hcm2]
    rfl

end EyeQ

namespace EyeQ

/-! ## The claims -/

/-- C1: terminal precedence of `full_response` fails in the code.  In the
claimed scenario (chunks accumulating to `"partial"`, then a `done` event
carrying `full_response = "final"` with an analysis, then end-of-stream), the
`done` fold does commit `"final"` with the analysis (fourth commit), but the
defensive end-of-stream step re-commits the accumulated chunk buffer because
its guard consults the stale pre-fold `messagesWithStreaming` array
(`ChatInterface.tsx:277`): the conversation ends with content `"partial"` and
a null analysis, not `"final"`. -/
theorem C1_terminal_precedence_code_bug :
    ((handleSendMessage freshUIState "hi" none none 100
        (.stream c1Events false)).ui.chat.conversations.map
      (fun c => c.messages.map (fun m => (m.content, m.isStreaming, m.analysis))))
      = [[("hi", none, none), ("partial", some false, some none)]] ∧
    (((handleSendMessage freshUIState "hi" none none 100
        (.stream c1Events false)).commits[3]?).map
      (fun st => st.conversations.map (fun c => c.messages.map (fun m => (m.content, m.analysis)))))
      = some [[("hi", none), ("final", some (some c1Analysis))]] := ⟨rfl, rfl⟩

/-- C2: an explicit stream `error` event is not terminal in the code.  The
`throw new Error(data.error)` at `ChatInterface.tsx:344` is caught by the
per-line parse catch at `:346`, so the loop continues: a later chunk event is
still folded in, and no commit ever carries an `isError` message — contrary
to the claimed transport-error-like apology. -/
theorem C2_stream_error_event_code_bug :
    ((handleSendMessage freshUIState "hi" none none 100
        (.stream c2Events false)).ui.chat.conversations.map
      (fun c => c.messages.map (fun m => (m.content, m.isError, m.isStreaming))))
      = [[("hi", none, none), ("x", none, some false)]] ∧
    ((handleSendMessage freshUIState "hi" none none 100
        (.stream c2Events false)).commits.all
      (fun st => st.conversations.all (fun c => c.messages.all (fun m => !(truthy m.isError)))))
      = true :=
  ⟨rfl, rfl⟩

/-- C3 (counterexample to the claim as stated): two sequential sends whose
streams end without any event leave a stale `isStreaming` placeholder each,
so a commit holds two streaming messages in one conversation. -/
theorem C3_at_most_one_streaming_counterexample :
    ((runChatOps freshUIState c3Ops).2.all atMostOneStreamingB) = false := by decide

/-- C3 (amended): for every sequence of sequential `handleSendMessage`,
`handleRegenerateResponse` and `handleEditLastUserMessage` calls whose
exchanges terminate (failed request, aborted reader, a `done` event, or
nonempty accumulated content) and whose `Date.now()` clock is valid (each
call's clock at least the running clock, which starts above every message id
already in the state), every conversation holds at most one streaming
message after every `updateCurrentMessages` commit, and the final state is
streaming-free. -/
theorem C3_at_most_one_streaming_amended (ui : UIState) (t : Nat) (ops : List ChatOp)
    (hclean : cleanChatB ui.chat = true) (hids : idsBelowB ui.chat t = true)
    (htime : timeOKB t ops = true) (hterm : ops.all opTerminates = true) :
    (runChatOps ui ops).2.all atMostOneStreamingB = true ∧
    cleanChatB (runChatOps ui ops).1.chat = true := by
  obtain ⟨h1, h2, _⟩ := runChatOps_ok ops ui t hclean hids htime hterm
  exact ⟨h1, h2⟩

/-- C3 witness: the amended theorem applied to a fresh state and a single
terminating send. -/
theorem C3_at_most_one_streaming_witness :
    cleanChatB freshUIState.chat = true ∧ idsBelowB freshUIState.chat 0 = true ∧
    timeOKB 0 c3WitnessOps = true ∧ c3WitnessOps.all opTerminates = true ∧
    ((runChatOps freshUIState c3WitnessOps).2.all atMostOneStreamingB = true ∧
     cleanChatB (runChatOps freshUIState c3WitnessOps).1.chat = true) :=
  ⟨by decide, by decide, by decide, by decide,
   C3_at_most_one_streaming_amended freshUIState 0 c3WitnessOps
     (by decide) (by decide) (by decide) (by decide)⟩

/-- C4 (counterexample to the claim as stated): saving a conversation array
and loading it back is not deep-equal to the original — `JSON.stringify`
turns the `Date`-typed `createdAt`/`updatedAt` fields into strings. -/
theorem C4_persistence_roundtrip_counterexample :
    loadFromLocalStorage
        (saveToLocalStorage rtStore STORAGE_KEY_CONVERSATIONS (conversationsJson [rtDemoConv]))
        STORAGE_KEY_CONVERSATIONS (.arr [])
      ≠ conversationsJson [rtDemoConv] := by
  intro h
  simp [loadFromLocalStorage, saveToLocalStorage, rtStore, LocalStorage.setItem,
        LocalStorage.getItem, rtDemoConv, conversationsJson, conversationJson,
        stringifyValue, stringifyList, stringifyFields, STORAGE_KEY_CONVERSATIONS] at h

/-- C4 (amended): in a browser context, `save` followed by `load` with the
same key returns the stringified image of the value (every `Date` replaced by
its ISO string), and for a `Date`-free value — the empty array included —
that image is the value itself, so the round trip is the identity exactly on
`Date`-free values. -/
theorem C4_persistence_roundtrip_amended (st : LocalStorage) (key : String) (v dflt : JsValue)
    (hw : st.hasWindow = true) :
    loadFromLocalStorage (saveToLocalStorage st key v) key dflt = stringifyValue v ∧
    (dateFree v = true → stringifyValue v = v) := by
  constructor
  · unfold loadFromLocalStorage
    rw [hasWindow_save, hw]
    simp [getItem_save st key v hw]
  · exact stringifyValue_of_dateFree v

/-- C4 witness: the amended theorem applied to the empty conversation array
in an empty browser store. -/
theorem C4_persistence_roundtrip_witness : rtStore.hasWindow = true ∧
    loadFromLocalStorage
        (saveToLocalStorage rtStore STORAGE_KEY_CONVERSATIONS (conversationsJson []))
        STORAGE_KEY_CONVERSATIONS JsValue.null = conversationsJson [] :=
  ⟨rfl, by
    have h := C4_persistence_roundtrip_amended rtStore STORAGE_KEY_CONVERSATIONS
      (conversationsJson []) JsValue.null rfl
    exact h.1.trans (h.2 rfl)⟩

/-- C5: chunk accumulation order.  Folding any list of chunk events appends
their concatenation, in arrival order, to the accumulated buffer; and in the
concrete exchange with chunks `["A", "B", "C"]` the commit trace shows the
placeholder content stepping through `""`, `"A"`, `"AB"`, `"ABC"`, with
`"ABC"` in place immediately before the terminal commit. -/
theorem C5_chunk_accumulation :
    (∀ (fs : StreamFold) (cs : List String),
        ((cs.map chunkLine).foldl processStreamLine fs).streamingContent
          = fs.streamingContent ++ String.join cs) ∧
    ((handleSendMessage freshUIState "Check this claim" none none 100
        (.stream [chunkLine "A", chunkLine "B", chunkLine "C"] false)).commits.map
      (fun st => st.conversations.map (fun c => c.messages.map (fun m => (m.content, m.isStreaming)))))
      = [[[("Check this claim", none)]],
         [[("Check this claim", none), ("", some true)]],
         [[("Check this claim", none), ("A", some true)]],
         [[("Check this claim", none), ("AB", some true)]],
         [[("Check this claim", none), ("ABC", some true)]],
         [[("Check this claim", none), ("ABC", some false)]]] :=
  ⟨fun fs cs => foldl_chunkLines_streamingContent cs fs, rfl⟩

/-- C6 (counterexample to the claim as stated): the title algorithm is not
idempotent — a first pass strips only one filler ("can you" in
"can you please x", yielding "Please x"), and a second pass strips the now
leading "please", yielding "X". -/
theorem C6_title_derivation_counterexample :
    generateTitleFromMessage (generateTitleFromMessage (codesOfString "can you please x")) ≠
      generateTitleFromMessage (codesOfString "can you please x") := by decide

/-- C6 (amended): on ASCII inputs — where the code-unit model of JS case
conversion is exact; outside ASCII `toUpperCase` is length-changing
(`'ß' → "SS"`), so capitalising a 50-unit title can push it past the
truncation threshold and break idempotence in the source — the title
algorithm is idempotent on every input whose derived title has no leading
filler token left; and for the input
"please check this ad for Clareon PanOptix: ..." the derived title does not
start with "please" (not even case-insensitively). -/
theorem C6_title_derivation_amended (s : List Nat)
    (_hascii : s.all (fun c => c < 128) = true)
    (h : hasLeadingFiller (generateTitleFromMessage s) = false) :
    generateTitleFromMessage (generateTitleFromMessage s) = generateTitleFromMessage s ∧
    matchesCI (codesOfString "please")
      (generateTitleFromMessage
        (codesOfString "please check this ad for Clareon PanOptix: ...")) = false := by
  constructor
  · have htrim : jsTrim (generateTitleFromMessage s) = generateTitleFromMessage s :=
      jsTrim_eq_self _ (generateTitle_trimmed s)
    have hsf : stripLeadingFiller (generateTitleFromMessage s) = generateTitleFromMessage s :=
      stripLeadingFiller_eq_self _ h
    have h50 : ¬ (generateTitleFromMessage s).length > 50 := by
      have := generateTitle_length_le s
      omega
    have hcap := capitalizeJs_generateTitle s
    have hne := generateTitle_ne_nil s
    conv_lhs => rw [generateTitleFromMessage]
    simp only [htrim, hsf, if_neg h50, hcap, if_neg hne]
  · decide

/-- C6 witness: the amended theorem applied to the ASCII input
"hello world", whose derived title "Hello world" has no leading filler. -/
theorem C6_title_derivation_witness :
    (codesOfString "hello world").all (fun c => c < 128) = true ∧
    hasLeadingFiller (generateTitleFromMessage (codesOfString "hello world")) = false ∧
    generateTitleFromMessage (generateTitleFromMessage (codesOfString "hello world"))
      = generateTitleFromMessage (codesOfString "hello world") :=
  ⟨by decide, by decide,
   (C6_title_derivation_amended (codesOfString "hello world") (by decide) (by decide)).1⟩

/-- C7 (counterexample to the claim as stated): switching to a nonexistent id
is not a no-op — the pointer is set unconditionally. -/
theorem C7_switch_nonexistent_counterexample :
    (switchConversation switchDemoState "zzz").currentConversationId ≠
      switchDemoState.currentConversationId := by decide

/-- C7 (amended): `switchConversation` sets the active pointer to the given
id unconditionally — existence is never checked — while leaving the
conversation list (hence every message) and the uploaded files unchanged,
and it cannot throw. -/
theorem C7_switch_conversation_amended (st : ChatState) (id : String) :
    (switchConversation st id).currentConversationId = some id ∧
    (switchConversation st id).conversations = st.conversations ∧
    (switchConversation st id).uploadedFiles = st.uploadedFiles :=
  ⟨rfl, rfl, rfl⟩

/-- C8 (counterexample to the claim as stated): `clearAllConversations`
empties the in-memory list but never writes to the store — the previously
persisted conversation value survives, and it is not the empty collection. -/
theorem C8_crud_persistence_counterexample :
    (clearAllConversations clearDemoState).conversations = [] ∧
    (clearAllConversations clearDemoState).storage = clearDemoState.storage ∧
    (clearAllConversations clearDemoState).storage.getItem STORAGE_KEY_CONVERSATIONS ≠
      some (stringifyValue (conversationsJson [])) := by
  refine ⟨rfl, rfl, fun h => ?_⟩
  simp [clearAllConversations, clearDemoState, clearDemoConv, saveConversationsToLocal,
        saveToLocalStorage, LocalStorage.setItem, LocalStorage.getItem, STORAGE_KEY_CONVERSATIONS,
        conversationsJson, conversationJson, stringifyValue, stringifyList, stringifyFields] at h

/-- C8 (amended): in a browser context, `renameConversation`,
`deleteConversation` and `toggleConversationPin` each persist the resulting
conversation collection to the store; `clearAllConversations` empties the
in-memory collection but leaves the store untouched. -/
theorem C8_crud_persistence_amended (st : ChatState) (id title : String)
    (hw : st.storage.hasWindow = true) :
    (renameConversation st id title).storage.getItem STORAGE_KEY_CONVERSATIONS
      = some (stringifyValue (conversationsJson (renameConversation st id title).conversations)) ∧
    (deleteConversation st id).storage.getItem STORAGE_KEY_CONVERSATIONS
      = some (stringifyValue (conversationsJson (deleteConversation st id).conversations)) ∧
    (toggleConversationPin st id).storage.getItem STORAGE_KEY_CONVERSATIONS
      = some (stringifyValue (conversationsJson (toggleConversationPin st id).conversations)) ∧
    (clearAllConversations st).conversations = [] ∧
    (clearAllConversations st).storage = st.storage :=
  ⟨getItem_saveConversations st.storage _ hw,
   getItem_saveConversations st.storage _ hw,
   getItem_saveConversations st.storage _ hw, rfl, rfl⟩

/-- C8 witness: the amended theorem applied to a concrete two-conversation
browser state. -/
theorem C8_crud_persistence_witness :
    delDemoState.storage.hasWindow = true ∧
    (clearAllConversations delDemoState).storage = delDemoState.storage :=
  ⟨rfl, (C8_crud_persistence_amended delDemoState "a" "T2" rfl).2.2.2.2⟩

/-- C9: `deleteConversation` removes exactly the conversations with the given
id and persists the filtered collection; when the deleted id was current, the
pointer moves to the first remaining conversation's id (or none when the list
empties — exact provided no surviving conversation has the empty-string id,
which the JS `|| null` fallback would collapse to null); otherwise the
pointer is unchanged. -/
theorem C9_delete_conversation_spec (st : ChatState) (id : String)
    (hw : st.storage.hasWindow = true)
    (hids : ∀ c ∈ st.conversations, c.id ≠ "") :
    (deleteConversation st id).conversations = st.conversations.filter (fun c => ¬ c.id = id) ∧
    (deleteConversation st id).storage.getItem STORAGE_KEY_CONVERSATIONS
      = some (stringifyValue (conversationsJson
          (st.conversations.filter (fun c => ¬ c.id = id)))) ∧
    (st.currentConversationId = some id →
      (deleteConversation st id).currentConversationId
        = ((st.conversations.filter (fun c => ¬ c.id = id)).head?).map Conversation.id) ∧
    (st.currentConversationId ≠ some id →
      (deleteConversation st id).currentConversationId = st.currentConversationId) := by
  refine ⟨rfl, getItem_saveConversations st.storage _ hw, ?_, ?_⟩
  · intro hcur
    show (if st.currentConversationId = some id then _ else _) = _
    rw [if_pos hcur]
    cases hh : (st.conversations.filter (fun c => ¬ c.id = id)).head? with
    | none => simp
    | some conv =>
      have hmem : conv ∈ st.conversations.filter (fun c => ¬ c.id = id) :=
        List.mem_of_mem_head? hh
      have : conv.id ≠ "" := hids conv (List.mem_of_mem_filter hmem)
      simp [this]
  · intro hcur
    show (if st.currentConversationId = some id then _ else _) = _
    rw [if_neg hcur]

/-- C9 witness: deleting the current of two conversations moves the pointer
to the remaining one. -/
theorem C9_delete_conversation_witness :
    delDemoState.storage.hasWindow = true ∧
    (∀ c ∈ delDemoState.conversations, c.id ≠ "") ∧
    (deleteConversation delDemoState "a").currentConversationId
      = ((delDemoState.conversations.filter (fun c => ¬ c.id = "a")).head?).map
          Conversation.id :=
  ⟨rfl, by decide,
   (C9_delete_conversation_spec delDemoState "a" rfl (by decide)).2.2.1 rfl⟩

/-- C10: sending an empty message with no file returns before any state
change — no conversation, no commit, no request, no loading flag. -/
theorem C10_empty_send_noop (ui : UIState) (attachments : Option (List Attachment))
    (now : Nat) (outcome : FetchOutcome) :
    handleSendMessage ui "" none attachments now outcome
      = { ui := ui, commits := [], requests := [] } := rfl

end EyeQ
